import Mathlib

/-!
Verification of the survey-traverse geometry engine of `lotlocateph`
(`utils.py` and `_calculate_single_lot_geometry` in `app.py`).

Shallow embedding conventions:
* Python floats are modelled by `ℚ`.  All arithmetic performed by the
  functions under verification (`deg + min/60`, quadrant folds, coordinate
  accumulation, shoelace sums, DMS extraction) is exact rational
  arithmetic, so `ℚ` is a faithful carrier for it.
* The transcendental library calls (`math.sin`, `math.cos`, `math.sqrt`,
  `math.atan2` composed with `math.degrees`) and shapely's polygon
  validity test are external collaborators; they are abstracted into the
  `GeomOps` parameter structure.  General theorems quantify over all
  `GeomOps`; concrete examples instantiate it with `modelOps`, whose
  table agrees with the exact mathematical values at the arguments that
  actually occur in those examples.
* Fallible Python code (returning `None` / raising) is modelled with
  `Option` / explicit result types.
* `str.splitlines` is modelled as splitting on `'\n'` (the repository's
  survey texts use plain newlines); `str.strip` strips the ASCII
  whitespace characters.  `float(...)` is modelled for finite decimal
  literals (optional sign, digits with optional fraction and exponent);
  `inf`/`nan`/underscore forms are outside the model.
-/

/-! ### Python-style string helpers -/

/-- The whitespace characters recognised by Python's `str.strip` and the
regex class `\s` (ASCII portion). -/
def isPySpace (c : Char) : Bool :=
  c = ' ' ∨ c = '\t' ∨ c = '\n' ∨ c = '\r' ∨ c = '\x0b' ∨ c = '\x0c'

/-- `str.strip()` on the underlying character list. -/
def pyStripList (cs : List Char) : List Char :=
  ((cs.dropWhile isPySpace).reverse.dropWhile isPySpace).reverse

/-- `str.strip()`. -/
def pyStrip (s : String) : String :=
  ⟨pyStripList s.data⟩

/-- Auxiliary splitter: split a character list at every occurrence of
`sep`, keeping empty segments (Python `str.split(sep)` semantics). -/
def pySplitAux (sep : Char) : List Char → List Char → List (List Char)
  | [], acc => [acc.reverse]
  | c :: cs, acc =>
      if c = sep then acc.reverse :: pySplitAux sep cs []
      else pySplitAux sep cs (c :: acc)

/-- Python `s.split(sep)` for a one-character separator.  On `""` it
returns `[""]`, exactly like Python. -/
def pySplit (sep : Char) (s : String) : List String :=
  (pySplitAux sep s.data []).map fun cs => ⟨cs⟩

/-- `str.splitlines()` modelled as splitting on `'\n'`.  (Python also
splits on `\r` and other line terminators and drops a trailing empty
segment; for the blank-line-filtered uses below the two models agree on
texts whose only terminator is `'\n'`.) -/
def pySplitlines (s : String) : List String :=
  pySplit '\n' s

/-- Value of a decimal digit (the regex class `\d`, ASCII portion),
`none` for any other character. -/
def digitVal (c : Char) : Option ℕ :=
  if c = '0' then some 0 else if c = '1' then some 1
  else if c = '2' then some 2 else if c = '3' then some 3
  else if c = '4' then some 4 else if c = '5' then some 5
  else if c = '6' then some 6 else if c = '7' then some 7
  else if c = '8' then some 8 else if c = '9' then some 9 else none

/-- Take the maximal run of leading decimal digits. -/
def takeDigits : List Char → List ℕ × List Char
  | [] => ([], [])
  | c :: cs =>
      match digitVal c with
      | some d => let p := takeDigits cs; (d :: p.1, p.2)
      | none => ([], c :: cs)

/-- Natural number denoted by a digit list (most significant first). -/
def natOfDigits (ds : List ℕ) : ℕ :=
  ds.foldl (fun acc d => 10 * acc + d) 0

/-- Consume an optional leading `+`/`-` sign. -/
def takeSign : List Char → ℤ × List Char
  | '+' :: cs => (1, cs)
  | '-' :: cs => (-1, cs)
  | cs => (1, cs)

/-- Exponent-and-end-of-input part of a Python float literal: either the
literal ends here, or it continues with `e`/`E`, an optional sign and at
least one digit and then ends. -/
def pyFloatExpPart (m : ℚ) : List Char → Option ℚ
  | [] => some m
  | e :: cs =>
      if e = 'e' ∨ e = 'E' then
        let se := takeSign cs
        let ed := takeDigits se.2
        if ed.1 = [] ∨ ed.2 ≠ [] then none
        else some (m * (10 : ℚ) ^ (se.1 * (natOfDigits ed.1 : ℤ)))
      else none

/-- Model of Python `float(s)` on finite decimal literals (the input is
assumed already stripped, as at its call site).  Returns `none` where
`float` raises `ValueError`. -/
def pyFloat (s : String) : Option ℚ :=
  let s1 := takeSign s.data
  let ip := takeDigits s1.2
  match ip.2 with
  | '.' :: cs =>
      let fp := takeDigits cs
      if ip.1 = [] ∧ fp.1 = [] then none
      else
        let mant : ℚ :=
          (s1.1 : ℚ) * ((natOfDigits ip.1 : ℚ) +
            (natOfDigits fp.1 : ℚ) / (10 : ℚ) ^ fp.1.length)
        pyFloatExpPart mant fp.2
  | rest =>
      if ip.1 = [] then none
      else pyFloatExpPart ((s1.1 : ℚ) * (natOfDigits ip.1 : ℚ)) rest

/-! ### Bearing regex

`re.match(r'([NS])\s*(\d{1,2})D\s*(\d{1,2})[′\x27]\s*([EW])', s, re.IGNORECASE)`
implemented as a character-level prefix matcher with the regex's greedy
one-or-two-digit backtracking made explicit. -/

/-- Greedy `\d{1,2}` immediately followed by one of the `stops`
characters: try two digits first, then backtrack to one. -/
def takeDigits12Stop (stops : List Char) : List Char → Option (ℕ × List Char)
  | a :: b :: c :: rest =>
      match digitVal a, digitVal b with
      | some da, some db =>
          if c ∈ stops then some (10 * da + db, rest)
          else if b ∈ stops then some (da, c :: rest)
          else none
      | some da, none =>
          if b ∈ stops then some (da, c :: rest) else none
      | none, _ => none
  | [a, b] =>
      match digitVal a with
      | some da => if b ∈ stops then some (da, []) else none
      | none => none
  | _ => none

/-- North/south letter class `[NS]` with `re.IGNORECASE`. -/
def isNSChar (c : Char) : Bool :=
  c = 'N' ∨ c = 'n' ∨ c = 'S' ∨ c = 's'

/-- East/west letter class `[EW]` with `re.IGNORECASE`. -/
def isEWChar (c : Char) : Bool :=
  c = 'E' ∨ c = 'e' ∨ c = 'W' ∨ c = 'w'

/-- Prefix match of the bearing regex.  Any trailing characters after the
final quadrant letter are ignored, exactly as with `re.match`.  Returns
the matched `(ns, degrees, minutes, ew)` groups. -/
def matchBearing (cs : List Char) : Option (Char × ℕ × ℕ × Char) :=
  match cs with
  | [] => none
  | c0 :: cs1 =>
      if isNSChar c0 then
        match takeDigits12Stop ['D', 'd'] (cs1.dropWhile isPySpace) with
        | none => none
        | some (dg, cs2) =>
            match takeDigits12Stop ['′', '\''] (cs2.dropWhile isPySpace) with
            | none => none
            | some (mn, cs3) =>
                match cs3.dropWhile isPySpace with
                | [] => none
                | e0 :: _ => if isEWChar e0 then some (c0, dg, mn, e0) else none
      else none

/-! ### `utils.parse_survey_line_to_bearing_distance` -/

/-- The normalized structure returned on a successful parse
(`{'ns', 'deg', 'min', 'ew', 'distance'}`). -/
structure SurveyLine where
  ns : Char
  deg : ℕ
  min : ℕ
  ew : Char
  distance : ℚ
  deriving DecidableEq, Repr

/-- `utils.parse_survey_line_to_bearing_distance`: split on `';'`,
require exactly two parts, parse and range-check the distance, match the
bearing regex, range-check degrees and minutes, upper-case the quadrant
letters.  `none` models every logged-and-`return None` path. -/
def parse_survey_line_to_bearing_distance (line_str : String) : Option SurveyLine :=
  match pySplit ';' line_str with
  | [p0, p1] =>
      match pyFloat (pyStrip p1) with
      | none => none
      | some distance =>
          if distance ≤ 0 then none
          else
            match matchBearing (pyStrip p0).data with
            | none => none
            | some (ns, deg, min_val, ew) =>
                if ¬ deg ≤ 89 then none
                else if ¬ min_val ≤ 59 then none
                else some ⟨ns.toUpper, deg, min_val, ew.toUpper, distance⟩
  | _ => none

/-! ### `utils.calculate_azimuth` -/

/-- `utils.calculate_azimuth`.  The dictionary-key presence check of the
source is vacuous on the typed structure; the `ns`/`ew` letter validation
is kept.  Returns the quadrant fold of `deg + min/60`. -/
def calculate_azimuth (b : SurveyLine) : Option ℚ :=
  let dec_deg : ℚ := (b.deg : ℚ) + (b.min : ℚ) / 60
  if ¬ (b.ns = 'N' ∨ b.ns = 'S') ∨ ¬ (b.ew = 'E' ∨ b.ew = 'W') then none
  else if b.ns = 'N' ∧ b.ew = 'E' then some dec_deg
  else if b.ns = 'S' ∧ b.ew = 'E' then some (180 - dec_deg)
  else if b.ns = 'S' ∧ b.ew = 'W' then some (180 + dec_deg)
  else if b.ns = 'N' ∧ b.ew = 'W' then some (360 - dec_deg)
  else none

/-! ### `utils.decimal_azimuth_to_bearing_string` -/

/-- Python `int(x)`: truncation toward zero. -/
def pyTrunc (q : ℚ) : ℤ :=
  if q < 0 then -⌊-q⌋ else ⌊q⌋

/-- Python `round(x)` (round half to even). -/
def pyRound (q : ℚ) : ℤ :=
  let f := ⌊q⌋
  let r := q - f
  if r < 1 / 2 then f
  else if 1 / 2 < r then f + 1
  else if 2 ∣ f then f else f + 1

/-- Structured form of the strings produced by
`decimal_azimuth_to_bearing_string`: the `"N/A"` answer for a missing
azimuth, the four exact cardinal strings, the `"Invalid Azimuth"`
fallback, and the quadrant form `"<NS> DDDMM′SS″ <EW>"`. -/
inductive BearingDisplay where
  | na
  | dueNorth
  | dueEast
  | dueSouth
  | dueWest
  | invalidAz
  | quad (ns : Char) (deg min sec : ℤ) (ew : Char)
  deriving DecidableEq, Repr

/-- The degrees/minutes/seconds extraction of
`decimal_azimuth_to_bearing_string` (with the sequential carry of
seconds and minutes on rounding to 60). -/
def bearingQuadDMS (ns ew : Char) (bearing_angle : ℚ) : BearingDisplay :=
  let degrees := pyTrunc bearing_angle
  let minutes_float := (bearing_angle - (degrees : ℚ)) * 60
  let minutes := pyTrunc minutes_float
  let seconds_float := (minutes_float - (minutes : ℚ)) * 60
  let seconds := pyRound seconds_float
  let s1 := if seconds = 60 then 0 else seconds
  let m1 := if seconds = 60 then minutes + 1 else minutes
  let m2 := if m1 = 60 then 0 else m1
  let d1 := if m1 = 60 then degrees + 1 else degrees
  .quad ns d1 m2 s1 ew

/-- `decimal_azimuth_to_bearing_string` up to string rendering: the
cardinal-direction epsilon tests, quadrant selection and DMS extraction,
on a possibly-missing (`None`) azimuth. -/
def bearingDisplayOf : Option ℚ → BearingDisplay
  | none => .na
  | some az =>
      let eps : ℚ := 1 / 1000000
      if |az - 0| < eps ∨ |az - 360| < eps then .dueNorth
      else if |az - 90| < eps then .dueEast
      else if |az - 180| < eps then .dueSouth
      else if |az - 270| < eps then .dueWest
      else if 0 < az ∧ az < 90 then bearingQuadDMS 'N' 'E' az
      else if 90 < az ∧ az < 180 then bearingQuadDMS 'S' 'E' (180 - az)
      else if 180 < az ∧ az < 270 then bearingQuadDMS 'S' 'W' (az - 180)
      else if 270 < az ∧ az < 360 then bearingQuadDMS 'N' 'W' (360 - az)
      else .invalidAz

/-- `f"{n:02d}"` for the nonnegative values occurring in bearing
strings. -/
def pad2 (i : ℤ) : String :=
  if i < 10 then "0" ++ toString i.toNat else toString i.toNat

/-- String rendering of a `BearingDisplay`, matching the source's
f-string `f"{ns} {deg:02d}D{min:02d}′{sec:02d}″ {ew}"` and the literal
special-case strings. -/
def renderBearingDisplay : BearingDisplay → String
  | .na => "N/A"
  | .dueNorth => "Due North"
  | .dueEast => "Due East"
  | .dueSouth => "Due South"
  | .dueWest => "Due West"
  | .invalidAz => "Invalid Azimuth"
  | .quad ns d m s ew =>
      String.singleton ns ++ " " ++ pad2 d ++ "D" ++ pad2 m ++ "′" ++
        pad2 s ++ "″ " ++ String.singleton ew

/-- `utils.decimal_azimuth_to_bearing_string`. -/
def decimal_azimuth_to_bearing_string (azimuth_deg : Option ℚ) : String :=
  renderBearingDisplay (bearingDisplayOf azimuth_deg)

/-! ### Geometric collaborators

The traverse engine calls `math.sin`/`math.cos` on `math.radians` of an
azimuth, `math.sqrt`, `math.degrees(math.atan2(..))`, and shapely's
polygon validity test.  These transcendental / external semantics are
abstracted into a parameter structure; the general theorems below hold
for every instance. -/

structure GeomOps where
  /-- `math.sin(math.radians a)` -/
  sinDeg : ℚ → ℚ
  /-- `math.cos(math.radians a)` -/
  cosDeg : ℚ → ℚ
  /-- `math.sqrt` -/
  sqrtQ : ℚ → ℚ
  /-- `math.degrees(math.atan2 y x)` -/
  atan2Deg : ℚ → ℚ → ℚ
  /-- shapely `Polygon(ring).is_valid` -/
  polyIsValid : List (ℚ × ℚ) → Bool

/-- `utils.calculate_new_coordinates` (azimuth 0° = north, clockwise:
sine gives the easting component, cosine the northing component). -/
def calculate_new_coordinates (G : GeomOps) (e_start n_start azimuth_deg distance : ℚ) :
    ℚ × ℚ :=
  (e_start + distance * G.sinDeg azimuth_deg,
   n_start + distance * G.cosDeg azimuth_deg)

/-- A rational stand-in for `sin 45° = cos 45° = √2/2` (the exact value
is irrational; `408/577 = 0.70710…` agrees with it to `3·10⁻⁷`). -/
def q45 : ℚ := 408 / 577

/-- Exact values of `math.degrees(math.atan2 y x)` for axis-aligned
arguments, where the mathematical value is rational; concrete examples
below only ever evaluate it on the axes. -/
def atan2DegAxes (y x : ℚ) : ℚ :=
  if y = 0 ∧ 0 < x then 0
  else if y = 0 ∧ x < 0 then 180
  else if x = 0 ∧ 0 < y then 90
  else if x = 0 ∧ y < 0 then -90
  else 0

/-- `math.sqrt` on rationals whose numerator and denominator are perfect
squares (exact there; concrete examples only use such arguments). -/
def ratSqrt (q : ℚ) : ℚ :=
  (Nat.sqrt q.num.toNat : ℚ) / (Nat.sqrt q.den : ℚ)

/-- Concrete `GeomOps` instance used by the closed examples: a value
table for `sin`/`cos` at the azimuths occurring in those examples
(multiples of 45°, with `q45` standing in for the irrational `√2/2`),
axis-exact `atan2`, perfect-square-exact `sqrt`, and an always-valid
polygon test. -/
def modelOps : GeomOps where
  sinDeg a :=
    if a = 0 then 0 else if a = 45 then q45 else if a = 90 then 1
    else if a = 135 then q45 else if a = 180 then 0 else if a = 225 then -q45
    else if a = 270 then -1 else if a = 315 then -q45 else 0
  cosDeg a :=
    if a = 0 then 1 else if a = 45 then q45 else if a = 90 then 0
    else if a = 135 then -q45 else if a = 180 then -1 else if a = 225 then -q45
    else if a = 270 then 0 else if a = 315 then q45 else 1
  sqrtQ := ratSqrt
  atan2Deg := atan2DegAxes
  polyIsValid _ := true

/-! ### `app._parse_and_calculate_next_point` -/

/-- Result of `_parse_and_calculate_next_point`: `{"status": "success",
"e", "n", "line_data"}` or `{"status": "error", "message"}`. -/
inductive StepResult where
  | ok (e n : ℚ) (line_data : SurveyLine)
  | err (message : String)
  deriving DecidableEq, Repr

/-- `app._parse_and_calculate_next_point`: parse the line, compute the
azimuth, step the coordinates; on either failure produce the logged
error message naming the lot, the line description, the line number and
the offending text. -/
def _parse_and_calculate_next_point (G : GeomOps) (line_str : String)
    (current_e current_n : ℚ) (line_num_for_log : ℕ)
    (lot_name_for_log line_description_for_log : String) : StepResult :=
  match parse_survey_line_to_bearing_distance line_str with
  | none =>
      .err ("Lot '" ++ lot_name_for_log ++ "': Invalid " ++
        line_description_for_log ++ " (line " ++ toString line_num_for_log ++
        "): " ++ line_str)
  | some line_data =>
      match calculate_azimuth line_data with
      | none =>
          .err ("Lot '" ++ lot_name_for_log ++ "': Azimuth error " ++
            line_description_for_log ++ " (line " ++ toString line_num_for_log ++
            "): " ++ line_str)
      | some azimuth =>
          let p := calculate_new_coordinates G current_e current_n azimuth
            line_data.distance
          .ok p.1 p.2 line_data

/-! ### `app._calculate_single_lot_geometry` -/

/-- The `lot_proj_coords` dictionary. -/
structure ProjCoords where
  pob_en : Option (ℚ × ℚ)
  tie_line_ens : List (ℚ × ℚ)
  parcel_boundary_ens : List (ℚ × ℚ)
  deriving DecidableEq, Repr

/-- The `lot_latlon_coords` dictionary (each point as `[lat, lon]`). -/
structure LatLonCoords where
  pob_latlng : Option (ℚ × ℚ)
  tie_line_latlngs : List (ℚ × ℚ)
  parcel_polygon_latlngs : List (ℚ × ℚ)
  deriving DecidableEq, Repr

inductive LotStatus where
  | success
  | error
  | nodata
  deriving DecidableEq, Repr

/-- The `misclosure_data_for_return` dictionary. -/
structure MisclosureData where
  distance_raw : Option ℚ
  azimuth_raw_deg : Option ℚ
  deriving DecidableEq, Repr

/-- The dictionary returned by `_calculate_single_lot_geometry`.  Keys
absent from the returned Python dictionary (e.g. `projected` on the
error path, `misclosure` on the error and nodata paths) are `none`. -/
structure LotResult where
  status : LotStatus
  lot_id : String
  lot_name : String
  message : Option String
  projected : Option ProjCoords
  latlon : Option LatLonCoords
  misclosure : Option MisclosureData
  area_sqm_raw : Option ℚ
  deriving DecidableEq, Repr

/-- A point's geographic transform, modelling
`_transform_point_to_latlon` applied with the given transformer: `none`
covers both an unavailable transformer and a raised transform error
(logged, `return None`). -/
abbrev Transform := ℚ × ℚ → Option (ℚ × ℚ)

/-- `lot_latlon_coords["pob_latlng"]` after the tie-line block: set only
when the transforms of BOTH the reference point and the POB succeed. -/
def pobLatlngOf (tr : Transform) (refP pobP : ℚ × ℚ) : Option (ℚ × ℚ) :=
  match tr refP, tr pobP with
  | some _, some p => some p
  | _, _ => none

/-- `lot_latlon_coords["tie_line_latlngs"]` after the tie-line block. -/
def tieLatlngsOf (tr : Transform) (refP pobP : ℚ × ℚ) : List (ℚ × ℚ) :=
  match tr refP, tr pobP with
  | some r, some p => [r, p]
  | _, _ => []

/-- Initial `parcel_polygon_latlngs` (the POB's slot) after the tie-line
block. -/
def initPolyLatlngs (tr : Transform) (refP pobP : ℚ × ℚ) : List (ℚ × ℚ) :=
  match tr refP, tr pobP with
  | some _, some p => [p]
  | _, _ => []

/-- The `for i, line_str in enumerate(survey_lines[1:], start=2)` loop:
threads the current point, appends each computed vertex to the
boundary, appends its geographic transform to the polygon list when that
single transform succeeds, and aborts with the step's error message on
the first failing line. -/
def boundaryLoop (G : GeomOps) (tr : Transform) (lot_name : String) :
    List String → ℕ → ℚ × ℚ → List (ℚ × ℚ) → List (ℚ × ℚ) →
    Except String (List (ℚ × ℚ) × List (ℚ × ℚ))
  | [], _, _, bnd, lls => .ok (bnd, lls)
  | line_str :: rest, i, cur, bnd, lls =>
      match _parse_and_calculate_next_point G line_str cur.1 cur.2 i lot_name
        "parcel boundary" with
      | .err m => .error m
      | .ok e n _ =>
          boundaryLoop G tr lot_name rest (i + 1) (e, n) (bnd ++ [(e, n)])
            (lls ++ ((tr (e, n)).toList))

/-- The misclosure block: computed on the boundary sequence as it stands
BEFORE ring closing, and only when it has at least two points; the
vector is `last point − POB`, the distance its Euclidean norm, the
azimuth `degrees(atan2 Δe Δn)` pushed into `[0, 360)` by adding 360 to
negative values. -/
def misclosureOf (G : GeomOps) (ring : List (ℚ × ℚ)) : MisclosureData :=
  if 2 ≤ ring.length then
    let pob_en := ring.headD (0, 0)
    let lastP := ring.getLastD (0, 0)
    let delta_e := lastP.1 - pob_en.1
    let delta_n := lastP.2 - pob_en.2
    let dist := G.sqrtQ (delta_e ^ 2 + delta_n ^ 2)
    let az := G.atan2Deg delta_e delta_n
    { distance_raw := some dist,
      azimuth_raw_deg := some (if az < 0 then az + 360 else az) }
  else
    { distance_raw := none, azimuth_raw_deg := none }

/-- The ring-closing block: when the projected boundary has more than
one point and its first and last points differ, append a copy of the
first point; inside that branch, close the geographic polygon likewise
when it is nonempty and not already closed. -/
def closeRings (bnd lls : List (ℚ × ℚ)) : List (ℚ × ℚ) × List (ℚ × ℚ) :=
  if 1 < bnd.length ∧ bnd.headD (0, 0) ≠ bnd.getLastD (0, 0) then
    (bnd ++ [bnd.headD (0, 0)],
     if lls ≠ [] ∧ lls.headD (0, 0) ≠ lls.getLastD (0, 0) then
       lls ++ [lls.headD (0, 0)]
     else lls)
  else (bnd, lls)

/-- Signed shoelace sum over consecutive vertices of a closed ring. -/
def shoelaceSum : List (ℚ × ℚ) → ℚ
  | p :: q :: rest => (p.1 * q.2 - q.1 * p.2) + shoelaceSum (q :: rest)
  | _ => 0

/-- Planar (shoelace) area of a closed ring, modelling shapely's
`Polygon(ring).area`. -/
def shoelaceArea (ring : List (ℚ × ℚ)) : ℚ :=
  |shoelaceSum ring| / 2

/-- The raw-area block: only for a closed ring of at least 4 points, and
only when the polygon is valid; otherwise the area is absent (`None`),
never zero and never an exception. -/
def areaBlock (G : GeomOps) (ring : List (ℚ × ℚ)) : Option ℚ :=
  if 4 ≤ ring.length then
    if G.polyIsValid ring then some (shoelaceArea ring) else none
  else none

/-- The `"nodata"` result (empty coordinate structures, explanatory
message). -/
def nodataResult (lot_id lot_name : String) : LotResult :=
  { status := .nodata, lot_id := lot_id, lot_name := lot_name,
    message := some ("Lot '" ++ lot_name ++ "' has no survey lines."),
    projected := some ⟨none, [], []⟩, latlon := some ⟨none, [], []⟩,
    misclosure := none, area_sqm_raw := none }

/-- The error result: status and message only — the returned dictionary
carries no `projected`/`latlon`/`misclosure`/`area` keys at all. -/
def errorResult (lot_id lot_name msg : String) : LotResult :=
  { status := .error, lot_id := lot_id, lot_name := lot_name,
    message := some msg, projected := none, latlon := none,
    misclosure := none, area_sqm_raw := none }

/-- `_calculate_single_lot_geometry` on the already-split non-blank
survey lines. -/
def calcLotFromLines (G : GeomOps) (tr : Transform) (ref_e ref_n : ℚ)
    (survey_lines : List String) (lot_id lot_name : String) : LotResult :=
  match survey_lines with
  | [] => nodataResult lot_id lot_name
  | line0 :: rest =>
      match _parse_and_calculate_next_point G line0 ref_e ref_n 1 lot_name
        "tie-line to POB" with
      | .err m => errorResult lot_id lot_name m
      | .ok pob_e pob_n _ =>
          match boundaryLoop G tr lot_name rest 2 (pob_e, pob_n)
            [(pob_e, pob_n)] (initPolyLatlngs tr (ref_e, ref_n) (pob_e, pob_n)) with
          | .error m => errorResult lot_id lot_name m
          | .ok (bnd, lls) =>
              let mis := misclosureOf G bnd
              let closed := closeRings bnd lls
              { status := .success, lot_id := lot_id, lot_name := lot_name,
                message := none,
                projected := some
                  { pob_en := some (pob_e, pob_n),
                    tie_line_ens := [(ref_e, ref_n), (pob_e, pob_n)],
                    parcel_boundary_ens := closed.1 },
                latlon := some
                  { pob_latlng := pobLatlngOf tr (ref_e, ref_n) (pob_e, pob_n),
                    tie_line_latlngs := tieLatlngsOf tr (ref_e, ref_n) (pob_e, pob_n),
                    parcel_polygon_latlngs := closed.2 },
                misclosure := some mis,
                area_sqm_raw := areaBlock G closed.1 }

/-- `app._calculate_single_lot_geometry`: split the survey text into
lines, drop blank lines, and run the traverse. -/
def _calculate_single_lot_geometry (G : GeomOps) (tr : Transform)
    (ref_e ref_n : ℚ) (survey_lines_text_for_lot : String)
    (lot_id lot_name : String) : LotResult :=
  calcLotFromLines G tr ref_e ref_n
    ((pySplitlines survey_lines_text_for_lot).filter
      fun l => pyStrip l ≠ "")
    lot_id lot_name

/-! ### Spec-side definitions

These follow the specification's words, for comparison with the
definitions translated from the source. -/

/-- The quadrant fold named by the spec: `N,E ↦ dec`, `S,E ↦ 180 − dec`,
`S,W ↦ 180 + dec`, `N,W ↦ 360 − dec` with `dec = degrees + minutes/60`. -/
def azimuthSpecFold (b : SurveyLine) : ℚ :=
  let dec : ℚ := (b.deg : ℚ) + (b.min : ℚ) / 60
  if b.ns = 'N' ∧ b.ew = 'E' then dec
  else if b.ns = 'S' ∧ b.ew = 'E' then 180 - dec
  else if b.ns = 'S' ∧ b.ew = 'W' then 180 + dec
  else 360 - dec

/-- Modelled from the spec: the misclosure azimuth per the spec's
words — `atan2(Δeasting, Δnorthing)` of "the vector from the last
computed boundary point back to the POB" (i.e. `POB − last`), normalized
into `[0, 360)`.  The source computes the opposite vector `last − POB`. -/
def specMisclosureAzimuth (G : GeomOps) (ring : List (ℚ × ℚ)) : ℚ :=
  let pob := ring.headD (0, 0)
  let lastP := ring.getLastD (0, 0)
  let az := G.atan2Deg (pob.1 - lastP.1) (pob.2 - lastP.2)
  if az < 0 then az + 360 else az

/-- "`d` reproduces the bearing `b`'s quadrant letters and its angle
within 1 arc-second": `d` is a quadrant bearing display with `b`'s
letters whose degrees/minutes/seconds value differs from `b`'s angle by
at most `1/3600` of a degree. -/
def reproducesQuadAngleB (b : SurveyLine) : BearingDisplay → Bool
  | .quad ns dg mn sc ew =>
      ns = b.ns ∧ ew = b.ew ∧
        |(dg : ℚ) + (mn : ℚ) / 60 + (sc : ℚ) / 3600 -
          ((b.deg : ℚ) + (b.min : ℚ) / 60)| ≤ 1 / 3600
  | _ => false

/-- A survey line on which `_parse_and_calculate_next_point` fails:
either the parse fails or (defensively, unreachable after a successful
parse) the azimuth calculation fails. -/
def stepFailsB (s : String) : Bool :=
  match parse_survey_line_to_bearing_distance s with
  | none => true
  | some b => (calculate_azimuth b).isNone

/-- `t` occurs as a substring of `s`. -/
def containsStr (s t : String) : Prop :=
  ∃ a b : String, s = a ++ (t ++ b)

/-- A concrete transformer that fails exactly at the point `(0, 0)` and
succeeds (as the identity) everywhere else: used to exercise the
reference-point transform failing while every other point's own
transform succeeds. -/
def trFailRef : Transform := fun p => if p = (0, 0) then none else some p

/-! ### C10 -/

/-- C10: the bearing pattern is matched only as a prefix of the bearing
segment — on `"N 10D 20′ E EXTRA;5.0"`, whose bearing segment carries
trailing text after the final quadrant letter, the parse succeeds with
the bearing read from the matching prefix and the trailing text
ignored. -/
theorem parse_ignores_trailing_bearing_text :
    parse_survey_line_to_bearing_distance "N 10D 20′ E EXTRA;5.0" =
      some ⟨'N', 10, 20, 'E', 5⟩ := by
  norm_num +decide [parse_survey_line_to_bearing_distance, pySplit, pySplitAux,
    pyStrip, pyStripList, matchBearing, takeDigits12Stop, isNSChar, isEWChar,
    isPySpace, digitVal, pyFloat, takeSign, takeDigits, natOfDigits,
    pyFloatExpPart]

/-! ### C2 -/

/-- C2 counterexample: the parser-accepted bearing N 0D 0′ W (degrees
and minutes both in range) makes `calculate_azimuth` return exactly 360,
which does not lie in the claimed half-open interval `[0, 360)`. -/
theorem calculate_azimuth_reaches_360 :
    calculate_azimuth ⟨'N', 0, 0, 'W', 1⟩ = some 360 ∧ ¬ ((360 : ℚ) < 360) := by
  constructor
  · norm_num +decide [calculate_azimuth]
  · norm_num

/-- C2 (amended): for every bearing structure accepted by the parser,
`calculate_azimuth` returns exactly the claimed quadrant fold of
`degrees + minutes/60`, and the value lies in the closed interval
`[0, 360]`; it equals 360 exactly for the N,W bearing with degrees and
minutes both zero (so the originally claimed half-open `[0, 360)` holds
in every other case). -/
theorem calculate_azimuth_fold_range (b : SurveyLine)
    (hns : b.ns = 'N' ∨ b.ns = 'S') (hew : b.ew = 'E' ∨ b.ew = 'W')
    (hdeg : b.deg ≤ 89) (hmin : b.min ≤ 59) :
    calculate_azimuth b = some (azimuthSpecFold b) ∧
    0 ≤ azimuthSpecFold b ∧ azimuthSpecFold b ≤ 360 ∧
    (azimuthSpecFold b = 360 ↔
      b.ns = 'N' ∧ b.ew = 'W' ∧ b.deg = 0 ∧ b.min = 0) := by
  obtain ⟨ns, dg, mn, ew, dist⟩ := b
  simp only at hns hew hdeg hmin
  have hdq : (dg : ℚ) ≤ 89 := by exact_mod_cast hdeg
  have hmq : (mn : ℚ) ≤ 59 := by exact_mod_cast hmin
  have h0 : (0 : ℚ) ≤ (dg : ℚ) + (mn : ℚ) / 60 := by positivity
  have h90 : (dg : ℚ) + (mn : ℚ) / 60 < 90 := by linarith
  have hzero : ((dg : ℚ) + (mn : ℚ) / 60 = 0) ↔ (dg = 0 ∧ mn = 0) := by
    constructor
    · intro h
      have hdn : (0 : ℚ) ≤ (dg : ℚ) := by positivity
      have hmn : (0 : ℚ) ≤ (mn : ℚ) / 60 := by positivity
      have hd0 : (dg : ℚ) = 0 := by linarith
      have hm0 : (mn : ℚ) = 0 := by linarith
      exact ⟨by exact_mod_cast hd0, by exact_mod_cast hm0⟩
    · rintro ⟨h1, h2⟩
      subst h1; subst h2; norm_num
  rcases hns with hns | hns <;> rcases hew with hew | hew <;>
    subst hns <;> subst hew
  · have hfold : azimuthSpecFold ⟨'N', dg, mn, 'E', dist⟩ =
        (dg : ℚ) + (mn : ℚ) / 60 := by
      simp +decide [azimuthSpecFold]
    have hcalc : calculate_azimuth ⟨'N', dg, mn, 'E', dist⟩ =
        some ((dg : ℚ) + (mn : ℚ) / 60) := by
      simp +decide [calculate_azimuth]
    refine ⟨by rw [hcalc, hfold], by rw [hfold]; linarith,
      by rw [hfold]; linarith, ?_⟩
    rw [hfold]
    constructor
    · intro h; linarith
    · rintro ⟨-, h, -⟩
      have h2 : ('E' : Char) = 'W' := h
      exact absurd h2 (by decide)
  · have hfold : azimuthSpecFold ⟨'N', dg, mn, 'W', dist⟩ =
        360 - ((dg : ℚ) + (mn : ℚ) / 60) := by
      simp +decide [azimuthSpecFold]
    have hcalc : calculate_azimuth ⟨'N', dg, mn, 'W', dist⟩ =
        some (360 - ((dg : ℚ) + (mn : ℚ) / 60)) := by
      simp +decide [calculate_azimuth]
    refine ⟨by rw [hcalc, hfold], by rw [hfold]; linarith,
      by rw [hfold]; linarith, ?_⟩
    rw [hfold]
    constructor
    · intro h
      have hd : (dg : ℚ) + (mn : ℚ) / 60 = 0 := by linarith
      obtain ⟨h1, h2⟩ := hzero.mp hd
      exact ⟨rfl, rfl, h1, h2⟩
    · rintro ⟨-, -, h1, h2⟩
      have : (dg : ℚ) + (mn : ℚ) / 60 = 0 := hzero.mpr ⟨h1, h2⟩
      linarith
  · have hfold : azimuthSpecFold ⟨'S', dg, mn, 'E', dist⟩ =
        180 - ((dg : ℚ) + (mn : ℚ) / 60) := by
      simp +decide [azimuthSpecFold]
    have hcalc : calculate_azimuth ⟨'S', dg, mn, 'E', dist⟩ =
        some (180 - ((dg : ℚ) + (mn : ℚ) / 60)) := by
      simp +decide [calculate_azimuth]
    refine ⟨by rw [hcalc, hfold], by rw [hfold]; linarith,
      by rw [hfold]; linarith, ?_⟩
    rw [hfold]
    constructor
    · intro h; linarith
    · rintro ⟨h, -⟩
      have h2 : ('S' : Char) = 'N' := h
      exact absurd h2 (by decide)
  · have hfold : azimuthSpecFold ⟨'S', dg, mn, 'W', dist⟩ =
        180 + ((dg : ℚ) + (mn : ℚ) / 60) := by
      simp +decide [azimuthSpecFold]
    have hcalc : calculate_azimuth ⟨'S', dg, mn, 'W', dist⟩ =
        some (180 + ((dg : ℚ) + (mn : ℚ) / 60)) := by
      simp +decide [calculate_azimuth]
    refine ⟨by rw [hcalc, hfold], by rw [hfold]; linarith,
      by rw [hfold]; linarith, ?_⟩
    rw [hfold]
    constructor
    · intro h; linarith
    · rintro ⟨h, -⟩
      have h2 : ('S' : Char) = 'N' := h
      exact absurd h2 (by decide)

/-- C2 witness: the amended theorem applied to the bearing S 29D 15′ W
(azimuth 209.25°). -/
theorem calculate_azimuth_fold_range_witness :
    calculate_azimuth ⟨'S', 29, 15, 'W', 1⟩ =
      some (azimuthSpecFold ⟨'S', 29, 15, 'W', 1⟩) ∧
    0 ≤ azimuthSpecFold ⟨'S', 29, 15, 'W', 1⟩ ∧
    azimuthSpecFold ⟨'S', 29, 15, 'W', 1⟩ ≤ 360 ∧
    (azimuthSpecFold ⟨'S', 29, 15, 'W', 1⟩ = 360 ↔
      ('S' = 'N' ∧ 'W' = 'W' ∧ 29 = 0 ∧ 15 = 0)) :=
  calculate_azimuth_fold_range ⟨'S', 29, 15, 'W', 1⟩ (Or.inr rfl) (Or.inr rfl)
    (by norm_num) (by norm_num)

/-! ### C3 -/

/-- `int()` truncation of `deg + min/60` recovers `deg` when `min ≤ 59`. -/
theorem pyTrunc_deg_add_min (dg mn : ℕ) (hmn : mn ≤ 59) :
    pyTrunc ((dg : ℚ) + (mn : ℚ) / 60) = (dg : ℤ) := by
  have hmq : (mn : ℚ) ≤ 59 := by exact_mod_cast hmn
  have h0 : (0 : ℚ) ≤ (mn : ℚ) / 60 := by positivity
  have hlt : (mn : ℚ) / 60 < 1 := by linarith
  have hnn : (0 : ℚ) ≤ (dg : ℚ) + (mn : ℚ) / 60 := by positivity
  rw [pyTrunc, if_neg (by linarith)]
  rw [Int.floor_eq_iff]
  constructor
  · push_cast; linarith
  · push_cast; linarith

theorem pyTrunc_natCast (n : ℕ) : pyTrunc (n : ℚ) = (n : ℤ) := by
  rw [pyTrunc, if_neg (not_lt.mpr (by positivity))]
  exact_mod_cast Int.floor_natCast n

theorem pyRound_zero : pyRound 0 = 0 := by
  norm_num [pyRound]

/-- DMS extraction is exact on angles of the form `deg + min/60` with
`min ≤ 59`: it yields exactly `deg` degrees, `min` minutes, `0`
seconds with no carry. -/
theorem bearingQuadDMS_exact (ns ew : Char) (dg mn : ℕ) (hmn : mn ≤ 59) :
    bearingQuadDMS ns ew ((dg : ℚ) + (mn : ℚ) / 60) =
      .quad ns (dg : ℤ) (mn : ℤ) 0 ew := by
  have e1 : ((dg : ℚ) + (mn : ℚ) / 60 - ((dg : ℤ) : ℚ)) * 60 = (mn : ℚ) := by
    push_cast; ring
  have e2 : ((mn : ℚ) - (((mn : ℕ) : ℤ) : ℚ)) * 60 = 0 := by
    push_cast; ring
  have hm60 : ¬ ((mn : ℤ) = 60) := by omega
  simp only [bearingQuadDMS, pyTrunc_deg_add_min dg mn hmn, e1,
    pyTrunc_natCast, e2, pyRound_zero]
  norm_num [hm60]

/-- Quadrant selection in the formatter, NE branch: an azimuth at least
one arc-minute away from 0 and from 90 falls through all cardinal
epsilon tests into `0 < az < 90`. -/
theorem bearingDisplayOf_NE (az : ℚ) (h1 : 1 / 60 ≤ az) (h2 : az ≤ 90 - 1 / 60) :
    bearingDisplayOf (some az) = bearingQuadDMS 'N' 'E' az := by
  have c1 : ¬ (|az - 0| < 1 / 1000000 ∨ |az - 360| < 1 / 1000000) := by
    rintro (h | h) <;> rw [abs_lt] at h <;> obtain ⟨ha, hb⟩ := h <;> linarith
  have c2 : ¬ (|az - 90| < 1 / 1000000) := by
    intro h; rw [abs_lt] at h; obtain ⟨ha, hb⟩ := h; linarith
  have c3 : ¬ (|az - 180| < 1 / 1000000) := by
    intro h; rw [abs_lt] at h; obtain ⟨ha, hb⟩ := h; linarith
  have c4 : ¬ (|az - 270| < 1 / 1000000) := by
    intro h; rw [abs_lt] at h; obtain ⟨ha, hb⟩ := h; linarith
  simp only [bearingDisplayOf]
  rw [if_neg c1, if_neg c2, if_neg c3, if_neg c4,
    if_pos ⟨by linarith, by linarith⟩]

/-- Quadrant selection in the formatter, SE branch
(`90 < az < 180`, at least one arc-minute from both ends). -/
theorem bearingDisplayOf_SE (az : ℚ) (h1 : 90 + 1 / 60 ≤ az)
    (h2 : az ≤ 180 - 1 / 60) :
    bearingDisplayOf (some az) = bearingQuadDMS 'S' 'E' (180 - az) := by
  have c1 : ¬ (|az - 0| < 1 / 1000000 ∨ |az - 360| < 1 / 1000000) := by
    rintro (h | h) <;> rw [abs_lt] at h <;> obtain ⟨ha, hb⟩ := h <;> linarith
  have c2 : ¬ (|az - 90| < 1 / 1000000) := by
    intro h; rw [abs_lt] at h; obtain ⟨ha, hb⟩ := h; linarith
  have c3 : ¬ (|az - 180| < 1 / 1000000) := by
    intro h; rw [abs_lt] at h; obtain ⟨ha, hb⟩ := h; linarith
  have c4 : ¬ (|az - 270| < 1 / 1000000) := by
    intro h; rw [abs_lt] at h; obtain ⟨ha, hb⟩ := h; linarith
  have c5 : ¬ (0 < az ∧ az < 90) := by rintro ⟨-, h⟩; linarith
  simp only [bearingDisplayOf]
  rw [if_neg c1, if_neg c2, if_neg c3, if_neg c4, if_neg c5,
    if_pos ⟨by linarith, by linarith⟩]

/-- Quadrant selection in the formatter, SW branch
(`180 < az < 270`, at least one arc-minute from both ends). -/
theorem bearingDisplayOf_SW (az : ℚ) (h1 : 180 + 1 / 60 ≤ az)
    (h2 : az ≤ 270 - 1 / 60) :
    bearingDisplayOf (some az) = bearingQuadDMS 'S' 'W' (az - 180) := by
  have c1 : ¬ (|az - 0| < 1 / 1000000 ∨ |az - 360| < 1 / 1000000) := by
    rintro (h | h) <;> rw [abs_lt] at h <;> obtain ⟨ha, hb⟩ := h <;> linarith
  have c2 : ¬ (|az - 90| < 1 / 1000000) := by
    intro h; rw [abs_lt] at h; obtain ⟨ha, hb⟩ := h; linarith
  have c3 : ¬ (|az - 180| < 1 / 1000000) := by
    intro h; rw [abs_lt] at h; obtain ⟨ha, hb⟩ := h; linarith
  have c4 : ¬ (|az - 270| < 1 / 1000000) := by
    intro h; rw [abs_lt] at h; obtain ⟨ha, hb⟩ := h; linarith
  have c5 : ¬ (0 < az ∧ az < 90) := by rintro ⟨-, h⟩; linarith
  have c6 : ¬ (90 < az ∧ az < 180) := by rintro ⟨-, h⟩; linarith
  simp only [bearingDisplayOf]
  rw [if_neg c1, if_neg c2, if_neg c3, if_neg c4, if_neg c5, if_neg c6,
    if_pos ⟨by linarith, by linarith⟩]

/-- Quadrant selection in the formatter, NW branch
(`270 < az < 360`, at least one arc-minute from both ends). -/
theorem bearingDisplayOf_NW (az : ℚ) (h1 : 270 + 1 / 60 ≤ az)
    (h2 : az ≤ 360 - 1 / 60) :
    bearingDisplayOf (some az) = bearingQuadDMS 'N' 'W' (360 - az) := by
  have c1 : ¬ (|az - 0| < 1 / 1000000 ∨ |az - 360| < 1 / 1000000) := by
    rintro (h | h) <;> rw [abs_lt] at h <;> obtain ⟨ha, hb⟩ := h <;> linarith
  have c2 : ¬ (|az - 90| < 1 / 1000000) := by
    intro h; rw [abs_lt] at h; obtain ⟨ha, hb⟩ := h; linarith
  have c3 : ¬ (|az - 180| < 1 / 1000000) := by
    intro h; rw [abs_lt] at h; obtain ⟨ha, hb⟩ := h; linarith
  have c4 : ¬ (|az - 270| < 1 / 1000000) := by
    intro h; rw [abs_lt] at h; obtain ⟨ha, hb⟩ := h; linarith
  have c5 : ¬ (0 < az ∧ az < 90) := by rintro ⟨-, h⟩; linarith
  have c6 : ¬ (90 < az ∧ az < 180) := by rintro ⟨-, h⟩; linarith
  have c7 : ¬ (180 < az ∧ az < 270) := by rintro ⟨-, h⟩; linarith
  simp only [bearingDisplayOf]
  rw [if_neg c1, if_neg c2, if_neg c3, if_neg c4, if_neg c5, if_neg c6,
    if_neg c7, if_pos ⟨by linarith, by linarith⟩]

/-- C3 counterexample: the valid bearing N 0D 0′ E (degrees and minutes
in range) has azimuth 0, which the formatter renders as the cardinal
string "Due North"; that display carries no quadrant letters at all, so
it does not reproduce the bearing's quadrant letters. -/
theorem roundtrip_fails_on_due_north :
    (⟨'N', 0, 0, 'E', 1⟩ : SurveyLine).deg ≤ 89 ∧
    (⟨'N', 0, 0, 'E', 1⟩ : SurveyLine).min ≤ 59 ∧
    bearingDisplayOf (calculate_azimuth ⟨'N', 0, 0, 'E', 1⟩) = .dueNorth ∧
    reproducesQuadAngleB ⟨'N', 0, 0, 'E', 1⟩
      (bearingDisplayOf (calculate_azimuth ⟨'N', 0, 0, 'E', 1⟩)) = false := by
  have hcalc : calculate_azimuth ⟨'N', 0, 0, 'E', 1⟩ = some 0 := by
    norm_num +decide [calculate_azimuth]
  have hdisp : bearingDisplayOf (some 0) = .dueNorth := by
    norm_num [bearingDisplayOf]
  refine ⟨by norm_num, by norm_num, by rw [hcalc, hdisp], ?_⟩
  rw [hcalc, hdisp]
  rfl

/-- C3 (amended): for every valid bearing whose angle is nonzero
(degrees and minutes not both 0), formatting the azimuth computed from
it reproduces its quadrant letters and its angle exactly — in
particular within 1 arc-second.  (For zero-angle bearings the formatter
returns a cardinal "Due …" string with no quadrant letters, which is
the counterexample to the original claim.) -/
theorem roundtrip_reproduces_bearing (b : SurveyLine)
    (hns : b.ns = 'N' ∨ b.ns = 'S') (hew : b.ew = 'E' ∨ b.ew = 'W')
    (hdeg : b.deg ≤ 89) (hmin : b.min ≤ 59) (hpos : 0 < b.deg + b.min) :
    reproducesQuadAngleB b (bearingDisplayOf (calculate_azimuth b)) = true := by
  obtain ⟨ns, dg, mn, ew, dist⟩ := b
  simp only at hns hew hdeg hmin hpos
  have hdq : (dg : ℚ) ≤ 89 := by exact_mod_cast hdeg
  have hmq : (mn : ℚ) ≤ 59 := by exact_mod_cast hmin
  have hsum : (1 : ℚ) ≤ (dg : ℚ) + (mn : ℚ) := by exact_mod_cast hpos
  have hdg0 : (0 : ℚ) ≤ (dg : ℚ) := by positivity
  have hmn0 : (0 : ℚ) ≤ (mn : ℚ) := by positivity
  have hlo : 1 / 60 ≤ (dg : ℚ) + (mn : ℚ) / 60 := by linarith
  have hhi : (dg : ℚ) + (mn : ℚ) / 60 ≤ 90 - 1 / 60 := by linarith
  rcases hns with hns | hns <;> rcases hew with hew | hew <;>
    subst hns <;> subst hew
  · have hcalc : calculate_azimuth ⟨'N', dg, mn, 'E', dist⟩ =
        some ((dg : ℚ) + (mn : ℚ) / 60) := by
      simp +decide [calculate_azimuth]
    rw [hcalc, bearingDisplayOf_NE _ hlo hhi, bearingQuadDMS_exact _ _ _ _ hmin]
    simp only [reproducesQuadAngleB]
    rw [decide_eq_true_eq]
    refine ⟨by trivial, by trivial, ?_⟩
    have : ((dg : ℤ) : ℚ) + ((mn : ℤ) : ℚ) / 60 + ((0 : ℤ) : ℚ) / 3600 -
        ((dg : ℚ) + (mn : ℚ) / 60) = 0 := by push_cast; ring
    rw [this]
    norm_num
  · have hcalc : calculate_azimuth ⟨'N', dg, mn, 'W', dist⟩ =
        some (360 - ((dg : ℚ) + (mn : ℚ) / 60)) := by
      simp +decide [calculate_azimuth]
    rw [hcalc, bearingDisplayOf_NW _ (by linarith) (by linarith)]
    have e : (360 : ℚ) - (360 - ((dg : ℚ) + (mn : ℚ) / 60)) =
        (dg : ℚ) + (mn : ℚ) / 60 := by ring
    rw [e, bearingQuadDMS_exact _ _ _ _ hmin]
    simp only [reproducesQuadAngleB]
    rw [decide_eq_true_eq]
    refine ⟨by trivial, by trivial, ?_⟩
    have : ((dg : ℤ) : ℚ) + ((mn : ℤ) : ℚ) / 60 + ((0 : ℤ) : ℚ) / 3600 -
        ((dg : ℚ) + (mn : ℚ) / 60) = 0 := by push_cast; ring
    rw [this]
    norm_num
  · have hcalc : calculate_azimuth ⟨'S', dg, mn, 'E', dist⟩ =
        some (180 - ((dg : ℚ) + (mn : ℚ) / 60)) := by
      simp +decide [calculate_azimuth]
    rw [hcalc, bearingDisplayOf_SE _ (by linarith) (by linarith)]
    have e : (180 : ℚ) - (180 - ((dg : ℚ) + (mn : ℚ) / 60)) =
        (dg : ℚ) + (mn : ℚ) / 60 := by ring
    rw [e, bearingQuadDMS_exact _ _ _ _ hmin]
    simp only [reproducesQuadAngleB]
    rw [decide_eq_true_eq]
    refine ⟨by trivial, by trivial, ?_⟩
    have : ((dg : ℤ) : ℚ) + ((mn : ℤ) : ℚ) / 60 + ((0 : ℤ) : ℚ) / 3600 -
        ((dg : ℚ) + (mn : ℚ) / 60) = 0 := by push_cast; ring
    rw [this]
    norm_num
  · have hcalc : calculate_azimuth ⟨'S', dg, mn, 'W', dist⟩ =
        some (180 + ((dg : ℚ) + (mn : ℚ) / 60)) := by
      simp +decide [calculate_azimuth]
    rw [hcalc, bearingDisplayOf_SW _ (by linarith) (by linarith)]
    have e : (180 : ℚ) + ((dg : ℚ) + (mn : ℚ) / 60) - 180 =
        (dg : ℚ) + (mn : ℚ) / 60 := by ring
    rw [e, bearingQuadDMS_exact _ _ _ _ hmin]
    simp only [reproducesQuadAngleB]
    rw [decide_eq_true_eq]
    refine ⟨by trivial, by trivial, ?_⟩
    have : ((dg : ℤ) : ℚ) + ((mn : ℤ) : ℚ) / 60 + ((0 : ℤ) : ℚ) / 3600 -
        ((dg : ℚ) + (mn : ℚ) / 60) = 0 := by push_cast; ring
    rw [this]
    norm_num

/-- C3 witness: the amended round-trip theorem applied to the bearing
S 29D 15′ W. -/
theorem roundtrip_reproduces_bearing_witness :
    reproducesQuadAngleB ⟨'S', 29, 15, 'W', 1⟩
      (bearingDisplayOf (calculate_azimuth ⟨'S', 29, 15, 'W', 1⟩)) = true :=
  roundtrip_reproduces_bearing ⟨'S', 29, 15, 'W', 1⟩ (Or.inr rfl) (Or.inr rfl)
    (by norm_num) (by norm_num) (by norm_num)

/-! ### C5 -/

/-- The claim's failure conditions for
`parse_survey_line_to_bearing_distance`: not exactly two `';'`-delimited
parts, or the distance segment does not parse as a number, or the
distance is `≤ 0`, or the bearing segment does not match the pattern, or
degrees outside `[0, 89]`, or minutes outside `[0, 59]` (degrees and
minutes are nonnegative by construction). -/
def parseFailSpec (line : String) : Prop :=
  (pySplit ';' line).length ≠ 2 ∨
  ∃ p0 p1, pySplit ';' line = [p0, p1] ∧
    (pyFloat (pyStrip p1) = none ∨
     (∃ d, pyFloat (pyStrip p1) = some d ∧ d ≤ 0) ∨
     matchBearing (pyStrip p0).data = none ∨
     (∃ ns dg mn ew, matchBearing (pyStrip p0).data = some (ns, dg, mn, ew) ∧
        (89 < dg ∨ 59 < mn)))

/-- The claim's success shape: two parts, positive parsed distance,
matched bearing with in-range degrees and minutes, quadrant letters
upper-cased in the result. -/
def parseOkShape (line : String) (r : SurveyLine) : Prop :=
  ∃ p0 p1, pySplit ';' line = [p0, p1] ∧
  ∃ d, pyFloat (pyStrip p1) = some d ∧ 0 < d ∧
  ∃ ns dg mn ew, matchBearing (pyStrip p0).data = some (ns, dg, mn, ew) ∧
    dg ≤ 89 ∧ mn ≤ 59 ∧ r = ⟨ns.toUpper, dg, mn, ew.toUpper, d⟩

/-- C5: `parse_survey_line_to_bearing_distance` returns `none` (it can
never raise — it is a total function into `Option`) exactly under the
claim's failure conditions, and otherwise returns the parsed structure
with the quadrant letters upper-cased. -/
theorem parse_survey_line_characterization (line : String) :
    (parse_survey_line_to_bearing_distance line = none ↔ parseFailSpec line) ∧
    (∀ r, parse_survey_line_to_bearing_distance line = some r ↔
      parseOkShape line r) := by
  rcases hps : pySplit ';' line with - | ⟨p0, - | ⟨p1, - | ⟨p2, ps⟩⟩⟩
  case nil =>
    have hnone : parse_survey_line_to_bearing_distance line = none := by
      simp [parse_survey_line_to_bearing_distance, hps]
    have hlen : (pySplit ';' line).length ≠ 2 := by rw [hps]; simp
    refine ⟨⟨fun _ => Or.inl hlen, fun _ => hnone⟩, fun r => ⟨?_, ?_⟩⟩
    · intro h; rw [hnone] at h; cases h
    · rintro ⟨q0, q1, hq, -⟩; rw [hps] at hq; cases hq
  case cons.nil =>
    have hnone : parse_survey_line_to_bearing_distance line = none := by
      simp [parse_survey_line_to_bearing_distance, hps]
    have hlen : (pySplit ';' line).length ≠ 2 := by rw [hps]; simp
    refine ⟨⟨fun _ => Or.inl hlen, fun _ => hnone⟩, fun r => ⟨?_, ?_⟩⟩
    · intro h; rw [hnone] at h; cases h
    · rintro ⟨q0, q1, hq, -⟩; rw [hps] at hq; cases hq
  case cons.cons.cons =>
    have hnone : parse_survey_line_to_bearing_distance line = none := by
      simp [parse_survey_line_to_bearing_distance, hps]
    have hlen : (pySplit ';' line).length ≠ 2 := by rw [hps]; simp
    refine ⟨⟨fun _ => Or.inl hlen, fun _ => hnone⟩, fun r => ⟨?_, ?_⟩⟩
    · intro h; rw [hnone] at h; cases h
    · rintro ⟨q0, q1, hq, -⟩; rw [hps] at hq; cases hq
  case cons.cons.nil =>
    rcases hf : pyFloat (pyStrip p1) with - | d
    · have hnone : parse_survey_line_to_bearing_distance line = none := by
        simp [parse_survey_line_to_bearing_distance, hps, hf]
      refine ⟨⟨fun _ => Or.inr ⟨p0, p1, hps, Or.inl hf⟩, fun _ => hnone⟩,
        fun r => ⟨?_, ?_⟩⟩
      · intro h; rw [hnone] at h; cases h
      · rintro ⟨q0, q1, hq, d, hd, -⟩
        rw [hps] at hq
        simp only [List.cons.injEq, eq_self_iff_true, and_true] at hq
        obtain ⟨rfl, rfl⟩ := hq
        rw [hf] at hd; cases hd
    · by_cases hd : d ≤ 0
      · have hnone : parse_survey_line_to_bearing_distance line = none := by
          simp [parse_survey_line_to_bearing_distance, hps, hf, hd]
        refine ⟨⟨fun _ => Or.inr ⟨p0, p1, hps, Or.inr (Or.inl ⟨d, hf, hd⟩)⟩,
          fun _ => hnone⟩, fun r => ⟨?_, ?_⟩⟩
        · intro h; rw [hnone] at h; cases h
        · rintro ⟨q0, q1, hq, d', hd', hpos, -⟩
          rw [hps] at hq
          simp only [List.cons.injEq, eq_self_iff_true, and_true] at hq
          obtain ⟨rfl, rfl⟩ := hq
          rw [hf] at hd'
          injection hd' with hd'
          subst hd'
          exact absurd hd (not_le.mpr hpos)
      · rcases hb : matchBearing (pyStrip p0).data with - | ⟨ns, dg, mn, ew⟩
        · have hnone : parse_survey_line_to_bearing_distance line = none := by
            simp [parse_survey_line_to_bearing_distance, hps, hf, hd, hb]
          refine ⟨⟨fun _ => Or.inr ⟨p0, p1, hps, Or.inr (Or.inr (Or.inl hb))⟩,
            fun _ => hnone⟩, fun r => ⟨?_, ?_⟩⟩
          · intro h; rw [hnone] at h; cases h
          · rintro ⟨q0, q1, hq, d', hd', hpos, ns, dg, mn, ew, hbm, -⟩
            rw [hps] at hq
            simp only [List.cons.injEq, eq_self_iff_true, and_true] at hq
            obtain ⟨rfl, rfl⟩ := hq
            rw [hb] at hbm; cases hbm
        · by_cases hdg : dg ≤ 89
          · by_cases hmn : mn ≤ 59
            · have hsome : parse_survey_line_to_bearing_distance line =
                  some ⟨ns.toUpper, dg, mn, ew.toUpper, d⟩ := by
                simp [parse_survey_line_to_bearing_distance, hps, hf, hd, hb,
                  hdg, hmn]
              constructor
              · rw [hsome]
                constructor
                · intro h; cases h
                · rintro (h | ⟨q0, q1, hq, hrest⟩)
                  · exact absurd (by rw [hps]; rfl) h
                  · rw [hps] at hq
                    simp only [List.cons.injEq, eq_self_iff_true, and_true] at hq
                    obtain ⟨rfl, rfl⟩ := hq
                    rcases hrest with h | ⟨d', hd', hle⟩ | h |
                        ⟨ns', dg', mn', ew', hbm, hout⟩
                    · rw [hf] at h; cases h
                    · rw [hf] at hd'; injection hd' with hd'; subst hd'
                      exact absurd hle hd
                    · rw [hb] at h; cases h
                    · rw [hb] at hbm
                      simp only [Option.some.injEq, Prod.mk.injEq] at hbm
                      obtain ⟨rfl, rfl, rfl, rfl⟩ := hbm
                      rcases hout with h | h
                      · exact absurd hdg (not_le.mpr h)
                      · exact absurd hmn (not_le.mpr h)
              · intro r
                rw [hsome]
                constructor
                · intro h
                  injection h with h
                  subst h
                  exact ⟨p0, p1, hps, d, hf, not_le.mp hd, ns, dg, mn, ew, hb,
                    hdg, hmn, rfl⟩
                · rintro ⟨q0, q1, hq, d', hd', -, ns', dg', mn', ew', hbm, -, -,
                    rfl⟩
                  rw [hps] at hq
                  simp only [List.cons.injEq, eq_self_iff_true, and_true] at hq
                  obtain ⟨rfl, rfl⟩ := hq
                  rw [hf] at hd'
                  injection hd' with hd'
                  subst hd'
                  rw [hb] at hbm
                  simp only [Option.some.injEq, Prod.mk.injEq] at hbm
                  obtain ⟨rfl, rfl, rfl, rfl⟩ := hbm
                  rfl
            · have hnone : parse_survey_line_to_bearing_distance line = none := by
                simp [parse_survey_line_to_bearing_distance, hps, hf, hd, hb,
                  hdg, hmn]
              refine ⟨⟨fun _ => Or.inr ⟨p0, p1, hps, Or.inr (Or.inr (Or.inr
                ⟨ns, dg, mn, ew, hb, Or.inr (not_le.mp hmn)⟩))⟩,
                fun _ => hnone⟩, fun r => ⟨?_, ?_⟩⟩
              · intro h; rw [hnone] at h; cases h
              · rintro ⟨q0, q1, hq, d', hd', hpos, ns', dg', mn', ew', hbm, -,
                  hmn', -⟩
                rw [hps] at hq
                simp only [List.cons.injEq, eq_self_iff_true, and_true] at hq
                obtain ⟨rfl, rfl⟩ := hq
                rw [hb] at hbm
                simp only [Option.some.injEq, Prod.mk.injEq] at hbm
                obtain ⟨rfl, rfl, rfl, rfl⟩ := hbm
                exact absurd hmn' hmn
          · have hnone : parse_survey_line_to_bearing_distance line = none := by
              simp [parse_survey_line_to_bearing_distance, hps, hf, hd, hb, hdg]
            refine ⟨⟨fun _ => Or.inr ⟨p0, p1, hps, Or.inr (Or.inr (Or.inr
              ⟨ns, dg, mn, ew, hb, Or.inl (not_le.mp hdg)⟩))⟩,
              fun _ => hnone⟩, fun r => ⟨?_, ?_⟩⟩
            · intro h; rw [hnone] at h; cases h
            · rintro ⟨q0, q1, hq, d', hd', hpos, ns', dg', mn', ew', hbm, hdg',
                -, -⟩
              rw [hps] at hq
              simp only [List.cons.injEq, eq_self_iff_true, and_true] at hq
              obtain ⟨rfl, rfl⟩ := hq
              rw [hb] at hbm
              simp only [Option.some.injEq, Prod.mk.injEq] at hbm
              obtain ⟨rfl, rfl, rfl, rfl⟩ := hbm
              exact absurd hdg' hdg

/-- C5 witness: the characterization applied to the line
`"N 10D 20′ E;0"`, rejected because its distance is not positive. -/
theorem parse_survey_line_characterization_witness :
    parse_survey_line_to_bearing_distance "N 10D 20′ E;0" = none :=
  (parse_survey_line_characterization "N 10D 20′ E;0").1.mpr
    (Or.inr ⟨"N 10D 20′ E", "0", by decide,
      Or.inr (Or.inl ⟨0, by norm_num +decide [pyFloat, takeSign, takeDigits,
        digitVal, natOfDigits, pyFloatExpPart, pyStrip, pyStripList, isPySpace],
        le_refl 0⟩)⟩)

/-! ### C9 -/

/-- C9: on survey text all of whose lines are blank (including the empty
string), `_calculate_single_lot_geometry` returns status `"nodata"` —
not `"error"` — together with empty projected and geographic coordinate
structures and the explanatory message. -/
theorem nodata_on_blank_text (G : GeomOps) (tr : Transform) (ref_e ref_n : ℚ)
    (text lot_id lot_name : String)
    (hblank : ∀ l ∈ pySplitlines text, pyStrip l = "") :
    _calculate_single_lot_geometry G tr ref_e ref_n text lot_id lot_name =
      nodataResult lot_id lot_name ∧
    (nodataResult lot_id lot_name).status = .nodata ∧
    (nodataResult lot_id lot_name).status ≠ .error ∧
    (nodataResult lot_id lot_name).projected = some ⟨none, [], []⟩ ∧
    (nodataResult lot_id lot_name).latlon = some ⟨none, [], []⟩ ∧
    (nodataResult lot_id lot_name).message =
      some ("Lot '" ++ lot_name ++ "' has no survey lines.") := by
  have hfilter : (pySplitlines text).filter (fun l => pyStrip l ≠ "") = [] := by
    rw [List.filter_eq_nil_iff]
    intro l hl
    simp [hblank l hl]
  refine ⟨?_, rfl, by simp [nodataResult], rfl, rfl, rfl⟩
  rw [_calculate_single_lot_geometry, hfilter]
  rfl

/-- C9 witness: the nodata theorem applied to a concrete text of blank
lines (spaces, tabs, empty line). -/
theorem nodata_on_blank_text_witness :
    _calculate_single_lot_geometry modelOps (fun _ => none) 0 0 " \n\t\n"
      "id" "L" = nodataResult "id" "L" :=
  (nodata_on_blank_text modelOps (fun _ => none) 0 0 " \n\t\n" "id" "L"
    (by decide)).1

/-! ### C7 -/

/-- C7: the ring-closing step appends a copy of the first projected
boundary point exactly when the boundary has more than one point and its
first and last points differ; inside that case the geographic sequence,
when available (nonempty and itself not already closed), is closed the
same way; a one-point boundary is left unchanged; and the closing step
is idempotent. -/
theorem closeRings_characterization :
    (∀ bnd lls : List (ℚ × ℚ),
      (1 < bnd.length ∧ bnd.headD (0, 0) ≠ bnd.getLastD (0, 0) →
        (closeRings bnd lls).1 = bnd ++ [bnd.headD (0, 0)]) ∧
      (¬ (1 < bnd.length ∧ bnd.headD (0, 0) ≠ bnd.getLastD (0, 0)) →
        closeRings bnd lls = (bnd, lls))) ∧
    (∀ bnd lls : List (ℚ × ℚ),
      1 < bnd.length ∧ bnd.headD (0, 0) ≠ bnd.getLastD (0, 0) →
      lls ≠ [] → lls.headD (0, 0) ≠ lls.getLastD (0, 0) →
      (closeRings bnd lls).2 = lls ++ [lls.headD (0, 0)]) ∧
    (∀ (p : ℚ × ℚ) (lls : List (ℚ × ℚ)), closeRings [p] lls = ([p], lls)) ∧
    (∀ bnd lls : List (ℚ × ℚ),
      closeRings (closeRings bnd lls).1 (closeRings bnd lls).2 =
        closeRings bnd lls) := by
  have hgetLast : ∀ (l : List (ℚ × ℚ)) (a : ℚ × ℚ),
      (l ++ [a]).getLastD (0, 0) = a := by
    intro l a; simp
  have hheadD : ∀ (l : List (ℚ × ℚ)) (a : ℚ × ℚ), l ≠ [] →
      (l ++ [a]).headD (0, 0) = l.headD (0, 0) := by
    intro l a hl; cases l with
    | nil => exact absurd rfl hl
    | cons x xs => simp
  refine ⟨fun bnd lls => ⟨?_, ?_⟩, ?_, ?_, ?_⟩
  · intro h; rw [closeRings, if_pos h]
  · intro h; rw [closeRings, if_neg h]
  · intro bnd lls hcond hne hopen
    rw [closeRings, if_pos hcond]
    simp only
    rw [if_pos ⟨hne, hopen⟩]
  · intro p lls
    rw [closeRings, if_neg]
    rintro ⟨h, -⟩
    simp at h
  · intro bnd lls
    by_cases hcond : 1 < bnd.length ∧ bnd.headD (0, 0) ≠ bnd.getLastD (0, 0)
    · have hbne : bnd ≠ [] := by
        rintro rfl; simp at hcond
      have h1 : (closeRings bnd lls).1 = bnd ++ [bnd.headD (0, 0)] := by
        rw [closeRings, if_pos hcond]
      have hclosed : (closeRings bnd lls).1.headD (0, 0) =
          (closeRings bnd lls).1.getLastD (0, 0) := by
        rw [h1, hgetLast, hheadD bnd _ hbne]
      rw [closeRings]
      rw [if_neg]
      rintro ⟨-, hne⟩
      exact hne hclosed
    · have heq : closeRings bnd lls = (bnd, lls) := by
        rw [closeRings, if_neg hcond]
      rw [heq, closeRings, if_neg hcond]

/-- C7 witness: the characterization applied to a concrete open
two-point boundary with a matching geographic sequence, and to a
concrete one-point boundary. -/
theorem closeRings_characterization_witness :
    (closeRings [((0 : ℚ), (0 : ℚ)), (1, 1)] [((5 : ℚ), (5 : ℚ)), (6, 6)]).1 =
      [(0, 0), (1, 1), (0, 0)] ∧
    (closeRings [((0 : ℚ), (0 : ℚ)), (1, 1)] [((5 : ℚ), (5 : ℚ)), (6, 6)]).2 =
      [(5, 5), (6, 6), (5, 5)] ∧
    closeRings [((2 : ℚ), (3 : ℚ))] [] = ([(2, 3)], []) := by
  refine ⟨?_, ?_, ?_⟩
  · rw [(closeRings_characterization.1 _ _).1 ⟨by norm_num, by norm_num⟩]
    norm_num
  · rw [closeRings_characterization.2.1 _ _ ⟨by norm_num, by norm_num⟩
      (by simp) (by norm_num)]
    norm_num
  · exact closeRings_characterization.2.2.1 (2, 3) []

/-! ### C6 -/

theorem containsStr_mid (x t y : String) : containsStr (x ++ t ++ y) t :=
  ⟨x, y, String.append_assoc x t y⟩

/-- On a failing line, `_parse_and_calculate_next_point` produces an
error message containing the lot name, the line number, and the
offending line text (both for parse failures and for the defensive
azimuth-failure branch). -/
theorem step_err_of_fails (s : String) (hs : stepFailsB s = true)
    (G : GeomOps) (e n : ℚ) (i : ℕ) (lot desc : String) :
    ∃ m, _parse_and_calculate_next_point G s e n i lot desc = .err m ∧
      containsStr m lot ∧ containsStr m (toString i) ∧ containsStr m s := by
  rw [stepFailsB] at hs
  rcases hp : parse_survey_line_to_bearing_distance s with - | b
  · refine ⟨"Lot '" ++ lot ++ "': Invalid " ++ desc ++ " (line " ++
      toString i ++ "): " ++ s, ?_, ?_, ?_, ?_⟩
    · rw [_parse_and_calculate_next_point, hp]
    · have h : "Lot '" ++ lot ++ "': Invalid " ++ desc ++ " (line " ++
          toString i ++ "): " ++ s =
          "Lot '" ++ lot ++ ("': Invalid " ++ desc ++ " (line " ++
            toString i ++ "): " ++ s) := by
        simp [String.append_assoc]
      rw [h]; exact containsStr_mid _ _ _
    · have h : "Lot '" ++ lot ++ "': Invalid " ++ desc ++ " (line " ++
          toString i ++ "): " ++ s =
          ("Lot '" ++ lot ++ "': Invalid " ++ desc ++ " (line ") ++
            toString i ++ ("): " ++ s) := by
        simp [String.append_assoc]
      rw [h]; exact containsStr_mid _ _ _
    · have h : "Lot '" ++ lot ++ "': Invalid " ++ desc ++ " (line " ++
          toString i ++ "): " ++ s =
          ("Lot '" ++ lot ++ "': Invalid " ++ desc ++ " (line " ++
            toString i ++ "): ") ++ s ++ "" := by
        simp [String.append_assoc]
      rw [h]; exact containsStr_mid _ _ _
  · rw [hp] at hs
    have hs2 : (calculate_azimuth b).isNone = true := hs
    have haz : calculate_azimuth b = none := by
      rcases haz : calculate_azimuth b with - | az
      · rfl
      · rw [haz] at hs2; simp at hs2
    refine ⟨"Lot '" ++ lot ++ "': Azimuth error " ++ desc ++ " (line " ++
      toString i ++ "): " ++ s, ?_, ?_, ?_, ?_⟩
    · rw [_parse_and_calculate_next_point, hp]
      simp only [haz]
    · have h : "Lot '" ++ lot ++ "': Azimuth error " ++ desc ++ " (line " ++
          toString i ++ "): " ++ s =
          "Lot '" ++ lot ++ ("': Azimuth error " ++ desc ++ " (line " ++
            toString i ++ "): " ++ s) := by
        simp [String.append_assoc]
      rw [h]; exact containsStr_mid _ _ _
    · have h : "Lot '" ++ lot ++ "': Azimuth error " ++ desc ++ " (line " ++
          toString i ++ "): " ++ s =
          ("Lot '" ++ lot ++ "': Azimuth error " ++ desc ++ " (line ") ++
            toString i ++ ("): " ++ s) := by
        simp [String.append_assoc]
      rw [h]; exact containsStr_mid _ _ _
    · have h : "Lot '" ++ lot ++ "': Azimuth error " ++ desc ++ " (line " ++
          toString i ++ "): " ++ s =
          ("Lot '" ++ lot ++ "': Azimuth error " ++ desc ++ " (line " ++
            toString i ++ "): ") ++ s ++ "" := by
        simp [String.append_assoc]
      rw [h]; exact containsStr_mid _ _ _

/-- On a non-failing line the step succeeds (with some new point). -/
theorem step_ok_of_not_fails (s : String) (hs : stepFailsB s = false)
    (G : GeomOps) (e n : ℚ) (i : ℕ) (lot desc : String) :
    ∃ e' n' ld, _parse_and_calculate_next_point G s e n i lot desc =
      .ok e' n' ld := by
  rw [stepFailsB] at hs
  rcases hp : parse_survey_line_to_bearing_distance s with - | b
  · rw [hp] at hs; simp at hs
  · rw [hp] at hs
    have hs2 : (calculate_azimuth b).isNone = false := hs
    rcases haz : calculate_azimuth b with - | az
    · rw [haz] at hs2; simp at hs2
    · refine ⟨(calculate_new_coordinates G e n az b.distance).1,
        (calculate_new_coordinates G e n az b.distance).2, b, ?_⟩
      rw [_parse_and_calculate_next_point, hp]
      simp only [haz]

/-- The boundary loop aborts at the first failing line with that line's
error message, independently of everything after it. -/
theorem boundaryLoop_first_fail (G : GeomOps) (tr : Transform)
    (lot_name : String) (pre : List String) (bad : String)
    (hpre : ∀ l ∈ pre, stepFailsB l = false) (hbad : stepFailsB bad = true) :
    ∀ (suf : List String) (i : ℕ) (cur : ℚ × ℚ) (bnd lls : List (ℚ × ℚ)),
    ∃ m, boundaryLoop G tr lot_name (pre ++ bad :: suf) i cur bnd lls =
        .error m ∧
      boundaryLoop G tr lot_name (pre ++ [bad]) i cur bnd lls = .error m ∧
      containsStr m lot_name ∧ containsStr m (toString (i + pre.length)) ∧
      containsStr m bad := by
  induction pre with
  | nil =>
    intro suf i cur bnd lls
    obtain ⟨m, hm, hc1, hc2, hc3⟩ :=
      step_err_of_fails bad hbad G cur.1 cur.2 i lot_name "parcel boundary"
    refine ⟨m, ?_, ?_, hc1, by simpa using hc2, hc3⟩
    · simp only [List.nil_append, boundaryLoop, hm]
    · simp only [List.nil_append, boundaryLoop, hm]
  | cons l0 pre' ih =>
    intro suf i cur bnd lls
    have h0 : stepFailsB l0 = false := hpre l0 (by simp)
    obtain ⟨e', n', ld, hok⟩ :=
      step_ok_of_not_fails l0 h0 G cur.1 cur.2 i lot_name "parcel boundary"
    obtain ⟨m, hm1, hm2, hc1, hc2, hc3⟩ :=
      ih (fun l hl => hpre l (by simp [hl])) suf (i + 1) (e', n')
        (bnd ++ [(e', n')]) (lls ++ (tr (e', n')).toList)
    have hidx : i + 1 + pre'.length = i + (l0 :: pre').length := by
      simp; omega
    refine ⟨m, ?_, ?_, hc1, by rwa [hidx] at hc2, hc3⟩
    · simp only [List.cons_append, boundaryLoop, hok]
      exact hm1
    · simp only [List.cons_append, boundaryLoop, hok]
      exact hm2

/-- C6: if the non-blank survey lines are `pre ++ bad :: suf` where every
line of `pre` succeeds and `bad` is the first failing line (parse or
azimuth failure — including the first tie-line, `pre = []`), then
`_calculate_single_lot_geometry` returns the error result whose status
is `"error"`, which carries no projected or geographic coordinates, and
whose message contains the lot name, the failing line's 1-based number
`pre.length + 1`, and the offending line text; moreover the result is
identical to the one computed with the lines after `bad` removed — the
suffix is never processed. -/
theorem lot_error_fail_fast (G : GeomOps) (tr : Transform) (ref_e ref_n : ℚ)
    (text : String) (pre : List String) (bad : String) (suf : List String)
    (lot_id lot_name : String)
    (hsplit : (pySplitlines text).filter (fun l => pyStrip l ≠ "") =
      pre ++ bad :: suf)
    (hpre : ∀ l ∈ pre, stepFailsB l = false) (hbad : stepFailsB bad = true) :
    ∃ m, _calculate_single_lot_geometry G tr ref_e ref_n text lot_id lot_name =
        errorResult lot_id lot_name m ∧
      _calculate_single_lot_geometry G tr ref_e ref_n text lot_id lot_name =
        calcLotFromLines G tr ref_e ref_n (pre ++ [bad]) lot_id lot_name ∧
      (errorResult lot_id lot_name m).status = .error ∧
      (errorResult lot_id lot_name m).projected = none ∧
      (errorResult lot_id lot_name m).latlon = none ∧
      (errorResult lot_id lot_name m).message = some m ∧
      containsStr m lot_name ∧ containsStr m (toString (pre.length + 1)) ∧
      containsStr m bad := by
  rw [_calculate_single_lot_geometry, hsplit]
  cases pre with
  | nil =>
    obtain ⟨m, hm, hc1, hc2, hc3⟩ :=
      step_err_of_fails bad hbad G ref_e ref_n 1 lot_name "tie-line to POB"
    refine ⟨m, ?_, ?_, rfl, rfl, rfl, rfl, hc1, by simpa using hc2, hc3⟩
    · simp only [List.nil_append, calcLotFromLines, hm]
    · simp only [List.nil_append, calcLotFromLines, hm]
  | cons l0 pre' =>
    have h0 : stepFailsB l0 = false := hpre l0 (by simp)
    obtain ⟨e', n', ld, hok⟩ :=
      step_ok_of_not_fails l0 h0 G ref_e ref_n 1 lot_name "tie-line to POB"
    obtain ⟨m, hm1, hm2, hc1, hc2, hc3⟩ :=
      boundaryLoop_first_fail G tr lot_name pre' bad
        (fun l hl => hpre l (by simp [hl])) hbad suf 2 (e', n')
        [(e', n')] (initPolyLatlngs tr (ref_e, ref_n) (e', n'))
    have hidx : 2 + pre'.length = (l0 :: pre').length + 1 := by
      simp; omega
    refine ⟨m, ?_, ?_, rfl, rfl, rfl, rfl, hc1, by rwa [hidx] at hc2, hc3⟩
    · simp only [List.cons_append, calcLotFromLines, hok]
      rw [hm1]
    · simp only [List.cons_append, calcLotFromLines, hok]
      rw [hm1, hm2]

/-- C6 witness: the fail-fast theorem applied to the two-line text
`"x\ny"`, whose first line already fails to parse. -/
theorem lot_error_fail_fast_witness :
    ∃ m, _calculate_single_lot_geometry modelOps (fun _ => none) 0 0 "x\ny"
        "id" "L" = errorResult "id" "L" m ∧
      _calculate_single_lot_geometry modelOps (fun _ => none) 0 0 "x\ny"
        "id" "L" =
        calcLotFromLines modelOps (fun _ => none) 0 0 ([] ++ ["x"]) "id" "L" ∧
      (errorResult "id" "L" m).status = .error ∧
      (errorResult "id" "L" m).projected = none ∧
      (errorResult "id" "L" m).latlon = none ∧
      (errorResult "id" "L" m).message = some m ∧
      containsStr m "L" ∧ containsStr m (toString (List.length ([] : List String) + 1)) ∧
      containsStr m "x" :=
  lot_error_fail_fast modelOps (fun _ => none) 0 0 "x\ny" [] "x" ["y"] "id" "L"
    (by decide) (by intro l hl; cases hl) (by decide)

/-! ### C4 -/

/-- The projected half of the ring-closing step depends only on the
projected ring. -/
theorem closeRings_fst (bnd lls lls' : List (ℚ × ℚ)) :
    (closeRings bnd lls).1 = (closeRings bnd lls').1 := by
  by_cases h : 1 < bnd.length ∧ bnd.headD (0, 0) ≠ bnd.getLastD (0, 0)
  · rw [closeRings, if_pos h, closeRings, if_pos h]
  · rw [closeRings, if_neg h, closeRings, if_neg h]

/-- The boundary loop run with two different transformers either fails
with the same message or succeeds with the same projected boundary. -/
theorem boundaryLoop_transform_indep (G : GeomOps) (tr tr' : Transform)
    (lot_name : String) :
    ∀ (lines : List String) (i : ℕ) (cur : ℚ × ℚ) (bnd lls lls' : List (ℚ × ℚ)),
    (∃ m, boundaryLoop G tr lot_name lines i cur bnd lls = .error m ∧
      boundaryLoop G tr' lot_name lines i cur bnd lls' = .error m) ∨
    (∃ bndF l1 l2, boundaryLoop G tr lot_name lines i cur bnd lls =
        .ok (bndF, l1) ∧
      boundaryLoop G tr' lot_name lines i cur bnd lls' = .ok (bndF, l2)) := by
  intro lines
  induction lines with
  | nil =>
    intro i cur bnd lls lls'
    exact Or.inr ⟨bnd, lls, lls', rfl, rfl⟩
  | cons l rest ih =>
    intro i cur bnd lls lls'
    rcases hstep : _parse_and_calculate_next_point G l cur.1 cur.2 i lot_name
        "parcel boundary" with ⟨e', n', ld⟩ | m
    · simpa only [boundaryLoop, hstep] using
        ih (i + 1) (e', n') (bnd ++ [(e', n')]) (lls ++ (tr (e', n')).toList)
          (lls' ++ (tr' (e', n')).toList)
    · exact Or.inl ⟨m, by simp only [boundaryLoop, hstep], by
        simp only [boundaryLoop, hstep]⟩

/-- A successful boundary loop appends the vertices it computes to the
projected ring, and appends exactly each vertex's own successful
transform (in order) to the geographic ring. -/
theorem boundaryLoop_latlngs (G : GeomOps) (tr : Transform)
    (lot_name : String) :
    ∀ (lines : List String) (i : ℕ) (cur : ℚ × ℚ)
      (bnd0 lls0 bndF llsF : List (ℚ × ℚ)),
    boundaryLoop G tr lot_name lines i cur bnd0 lls0 = .ok (bndF, llsF) →
    ∃ new, bndF = bnd0 ++ new ∧ llsF = lls0 ++ new.filterMap tr := by
  intro lines
  induction lines with
  | nil =>
    intro i cur bnd0 lls0 bndF llsF h
    simp only [boundaryLoop, Except.ok.injEq, Prod.mk.injEq] at h
    exact ⟨[], by simp [h.1.symm], by simp [h.2.symm]⟩
  | cons l rest ih =>
    intro i cur bnd0 lls0 bndF llsF h
    rcases hstep : _parse_and_calculate_next_point G l cur.1 cur.2 i lot_name
        "parcel boundary" with ⟨e', n', ld⟩ | m
    · rw [boundaryLoop] at h
      rw [hstep] at h
      obtain ⟨new, h1, h2⟩ := ih (i + 1) (e', n') (bnd0 ++ [(e', n')])
        (lls0 ++ (tr (e', n')).toList) bndF llsF h
      refine ⟨(e', n') :: new, ?_, ?_⟩
      · rw [h1, List.append_assoc]; rfl
      · rw [h2, List.append_assoc, List.filterMap_cons]
        rcases htr : tr (e', n') with - | q <;> simp [htr]
    · rw [boundaryLoop] at h
      rw [hstep] at h
      cases h

/-- C4 (amended): transform failures never affect the lot status, the
projected sequences, the misclosure or the area (those agree for any two
transformers); on success, the reference point and the POB are
transformed as a PAIR — the POB geographic slot, the tie-line and the
polygon's POB entry are all dropped when either of those two transforms
fails, even if the POB's own transform succeeds — while each later
vertex is transformed independently, contributing its slot exactly when
its own transform succeeds. -/
theorem transform_failures_scoped (G : GeomOps) (tr tr' : Transform)
    (ref_e ref_n : ℚ) (lines : List String) (lot_id lot_name : String) :
    ((calcLotFromLines G tr ref_e ref_n lines lot_id lot_name).status =
       (calcLotFromLines G tr' ref_e ref_n lines lot_id lot_name).status ∧
     (calcLotFromLines G tr ref_e ref_n lines lot_id lot_name).projected =
       (calcLotFromLines G tr' ref_e ref_n lines lot_id lot_name).projected ∧
     (calcLotFromLines G tr ref_e ref_n lines lot_id lot_name).misclosure =
       (calcLotFromLines G tr' ref_e ref_n lines lot_id lot_name).misclosure ∧
     (calcLotFromLines G tr ref_e ref_n lines lot_id lot_name).area_sqm_raw =
       (calcLotFromLines G tr' ref_e ref_n lines lot_id lot_name).area_sqm_raw) ∧
    (∀ line0 rest pe pn ld bnd lls, lines = line0 :: rest →
      _parse_and_calculate_next_point G line0 ref_e ref_n 1 lot_name
        "tie-line to POB" = .ok pe pn ld →
      boundaryLoop G tr lot_name rest 2 (pe, pn) [(pe, pn)]
        (initPolyLatlngs tr (ref_e, ref_n) (pe, pn)) = .ok (bnd, lls) →
      (calcLotFromLines G tr ref_e ref_n lines lot_id lot_name).latlon =
        some ⟨pobLatlngOf tr (ref_e, ref_n) (pe, pn),
          tieLatlngsOf tr (ref_e, ref_n) (pe, pn), (closeRings bnd lls).2⟩ ∧
      lls = initPolyLatlngs tr (ref_e, ref_n) (pe, pn) ++
        bnd.tail.filterMap tr ∧
      ((tr (ref_e, ref_n) = none ∨ tr (pe, pn) = none) →
        pobLatlngOf tr (ref_e, ref_n) (pe, pn) = none ∧
        initPolyLatlngs tr (ref_e, ref_n) (pe, pn) = []) ∧
      (∀ ql qp, tr (ref_e, ref_n) = some ql → tr (pe, pn) = some qp →
        pobLatlngOf tr (ref_e, ref_n) (pe, pn) = some qp ∧
        initPolyLatlngs tr (ref_e, ref_n) (pe, pn) = [qp])) := by
  constructor
  · cases lines with
    | nil => exact ⟨by trivial, by trivial, by trivial, by trivial⟩
    | cons line0 rest =>
      rcases hstep : _parse_and_calculate_next_point G line0 ref_e ref_n 1
          lot_name "tie-line to POB" with ⟨pe, pn, ld⟩ | m
      · rcases boundaryLoop_transform_indep G tr tr' lot_name rest 2 (pe, pn)
            [(pe, pn)] (initPolyLatlngs tr (ref_e, ref_n) (pe, pn))
            (initPolyLatlngs tr' (ref_e, ref_n) (pe, pn)) with
          ⟨m, hm1, hm2⟩ | ⟨bndF, l1, l2, hk1, hk2⟩
        · simp only [calcLotFromLines, hstep]
          rw [hm1, hm2]
          exact ⟨by trivial, by trivial, by trivial, by trivial⟩
        · simp only [calcLotFromLines, hstep]
          rw [hk1, hk2]
          refine ⟨rfl, ?_, rfl, ?_⟩
          · simp only [closeRings_fst bndF l1 l2]
          · simp only [closeRings_fst bndF l1 l2]
      · simp only [calcLotFromLines, hstep]
        exact ⟨by trivial, by trivial, by trivial, by trivial⟩
  · rintro line0 rest pe pn ld bnd lls rfl htie hloop
    refine ⟨?_, ?_, ?_, ?_⟩
    · simp only [calcLotFromLines, htie]
      rw [hloop]
    · obtain ⟨new, h1, h2⟩ := boundaryLoop_latlngs G tr lot_name rest 2
        (pe, pn) [(pe, pn)] (initPolyLatlngs tr (ref_e, ref_n) (pe, pn))
        bnd lls hloop
      rw [h2, h1]
      rfl
    · intro h
      rcases h with h | h
      · constructor
        · rw [pobLatlngOf, h]
        · rw [initPolyLatlngs, h]
      · constructor
        · rw [pobLatlngOf, h]
          rcases tr (ref_e, ref_n) with - | q <;> rfl
        · rw [initPolyLatlngs, h]
          rcases tr (ref_e, ref_n) with - | q <;> rfl
    · intro ql qp h1 h2
      constructor
      · rw [pobLatlngOf, h1, h2]
      · rw [initPolyLatlngs, h1, h2]

theorem trFailRef_at_ref : trFailRef (0, 0) = none := by
  norm_num [trFailRef]

theorem trFailRef_at_pob : trFailRef (0, 1) = some (0, 1) := by
  norm_num [trFailRef, Prod.ext_iff]

theorem parse_n0e1 :
    parse_survey_line_to_bearing_distance "N 0D 0′ E;1" =
      some ⟨'N', 0, 0, 'E', 1⟩ := by
  norm_num +decide [parse_survey_line_to_bearing_distance, pySplit, pySplitAux,
    pyStrip, pyStripList, matchBearing, takeDigits12Stop, isNSChar, isEWChar,
    isPySpace, digitVal, pyFloat, takeSign, takeDigits, natOfDigits,
    pyFloatExpPart]

theorem az_n0e : calculate_azimuth ⟨'N', 0, 0, 'E', 1⟩ = some 0 := by
  norm_num +decide [calculate_azimuth]

/-- A due-north unit step under the model kernel advances the northing
by one, from any position and with any logging arguments. -/
theorem step_n0e1 (e n : ℚ) (i : ℕ) (lot desc : String) :
    _parse_and_calculate_next_point modelOps "N 0D 0′ E;1" e n i lot desc =
      .ok e (n + 1) ⟨'N', 0, 0, 'E', 1⟩ := by
  rw [_parse_and_calculate_next_point, parse_n0e1]
  simp only [az_n0e]
  norm_num [calculate_new_coordinates, modelOps]

/-- Full evaluation of the one-line lot `"N 0D 0′ E;1"` from reference
`(0, 0)` under `trFailRef`: the lot succeeds with POB `(0, 1)`, but
because the reference point's transform fails, every geographic slot is
empty — although the POB's own transform succeeds. -/
theorem lot1_eval :
    _calculate_single_lot_geometry modelOps trFailRef 0 0 "N 0D 0′ E;1"
      "id" "L" =
    { status := .success, lot_id := "id", lot_name := "L", message := none,
      projected := some ⟨some (0, 1), [(0, 0), (0, 1)], [(0, 1)]⟩,
      latlon := some ⟨none, [], []⟩,
      misclosure := some ⟨none, none⟩, area_sqm_raw := none } := by
  have hsplit : (pySplitlines "N 0D 0′ E;1").filter
      (fun l => pyStrip l ≠ "") = ["N 0D 0′ E;1"] := by decide
  have h1 : _parse_and_calculate_next_point modelOps "N 0D 0′ E;1" 0 0 1 "L"
      "tie-line to POB" = .ok 0 1 ⟨'N', 0, 0, 'E', 1⟩ := by
    rw [step_n0e1]; norm_num
  have hinit : initPolyLatlngs trFailRef (0, 0) (0, 1) = [] := by
    rw [initPolyLatlngs, trFailRef_at_ref]
  have hpob : pobLatlngOf trFailRef (0, 0) (0, 1) = none := by
    rw [pobLatlngOf, trFailRef_at_ref]
  have htie : tieLatlngsOf trFailRef (0, 0) (0, 1) = [] := by
    rw [tieLatlngsOf, trFailRef_at_ref]
  have hmisc : misclosureOf modelOps [((0 : ℚ), (1 : ℚ))] = ⟨none, none⟩ := by
    rw [misclosureOf, if_neg (by norm_num)]
  have hcond : ¬ (1 < ([((0 : ℚ), (1 : ℚ))] : List (ℚ × ℚ)).length ∧
      ([((0 : ℚ), (1 : ℚ))] : List (ℚ × ℚ)).headD (0, 0) ≠
        ([((0 : ℚ), (1 : ℚ))] : List (ℚ × ℚ)).getLastD (0, 0)) := by
    rintro ⟨h, -⟩; simp at h
  have hclose : closeRings [((0 : ℚ), (1 : ℚ))] [] = ([(0, 1)], []) := by
    rw [closeRings, if_neg hcond]
  have harea : areaBlock modelOps [((0 : ℚ), (1 : ℚ))] = none := by
    rw [areaBlock, if_neg (by norm_num)]
  rw [_calculate_single_lot_geometry, hsplit]
  simp only [calcLotFromLines, h1, boundaryLoop, hinit, hpob, htie, hmisc,
    hclose, harea]

/-- C4 counterexample: with a transformer failing only at the reference
point `(0, 0)`, the one-line lot succeeds and the POB's OWN transform
succeeds, yet the POB's geographic slot, the tie-line and the polygon
sequence are all empty — the POB slot is not independent of the
reference point's transform. -/
theorem transform_pob_dropped_despite_own_success :
    trFailRef (0, 1) = some (0, 1) ∧
    (_calculate_single_lot_geometry modelOps trFailRef 0 0 "N 0D 0′ E;1"
      "id" "L").status = .success ∧
    (_calculate_single_lot_geometry modelOps trFailRef 0 0 "N 0D 0′ E;1"
      "id" "L").projected =
      some ⟨some (0, 1), [(0, 0), (0, 1)], [(0, 1)]⟩ ∧
    (_calculate_single_lot_geometry modelOps trFailRef 0 0 "N 0D 0′ E;1"
      "id" "L").latlon = some ⟨none, [], []⟩ := by
  refine ⟨trFailRef_at_pob, ?_, ?_, ?_⟩ <;> rw [lot1_eval]

/-- C4 witness: the amended theorem applied to the one-line lot under
`trFailRef` versus the always-failing transformer. -/
theorem transform_failures_scoped_witness :
    (calcLotFromLines modelOps trFailRef 0 0 ["N 0D 0′ E;1"] "id"
        "L").status =
      (calcLotFromLines modelOps (fun _ => none) 0 0 ["N 0D 0′ E;1"] "id"
        "L").status ∧
    (calcLotFromLines modelOps trFailRef 0 0 ["N 0D 0′ E;1"] "id"
        "L").latlon =
      some ⟨pobLatlngOf trFailRef (0, 0) (0, 1),
        tieLatlngsOf trFailRef (0, 0) (0, 1),
        (closeRings [(0, 1)]
          (initPolyLatlngs trFailRef (0, 0) (0, 1))).2⟩ := by
  refine ⟨(transform_failures_scoped modelOps trFailRef (fun _ => none) 0 0
    ["N 0D 0′ E;1"] "id" "L").1.1, ?_⟩
  exact ((transform_failures_scoped modelOps trFailRef (fun _ => none) 0 0
    ["N 0D 0′ E;1"] "id" "L").2 "N 0D 0′ E;1" [] 0 1 ⟨'N', 0, 0, 'E', 1⟩
    [(0, 1)] (initPolyLatlngs trFailRef (0, 0) (0, 1)) rfl
    (by rw [step_n0e1]; norm_num) rfl).1

/-! ### C1 -/

/-- C1 (amended): for every successful lot whose parcel boundary has at
least 2 points, the misclosure is computed on the pre-closure boundary
`bnd` (the result stores the closed ring `closeRings bnd lls` while the
misclosure uses `bnd` itself), as the vector FROM the POB TO the last
computed boundary point (`last − POB`, the opposite of the claimed
direction): the distance is `sqrt(Δe² + Δn²)` and the azimuth is
`degrees(atan2 Δe Δn)` of that vector, normalized into `[0, 360)` by
adding 360 to negative values. -/
theorem misclosure_pre_closure (G : GeomOps) (tr : Transform)
    (ref_e ref_n : ℚ) (line0 : String) (rest : List String)
    (lot_id lot_name : String) (pe pn : ℚ) (ld : SurveyLine)
    (bnd lls : List (ℚ × ℚ))
    (htie : _parse_and_calculate_next_point G line0 ref_e ref_n 1 lot_name
      "tie-line to POB" = .ok pe pn ld)
    (hloop : boundaryLoop G tr lot_name rest 2 (pe, pn) [(pe, pn)]
      (initPolyLatlngs tr (ref_e, ref_n) (pe, pn)) = .ok (bnd, lls))
    (hlen : 2 ≤ bnd.length) :
    (calcLotFromLines G tr ref_e ref_n (line0 :: rest) lot_id
        lot_name).status = .success ∧
    (calcLotFromLines G tr ref_e ref_n (line0 :: rest) lot_id
        lot_name).misclosure = some (misclosureOf G bnd) ∧
    (calcLotFromLines G tr ref_e ref_n (line0 :: rest) lot_id
        lot_name).projected = some ⟨some (pe, pn),
      [(ref_e, ref_n), (pe, pn)], (closeRings bnd lls).1⟩ ∧
    misclosureOf G bnd =
      { distance_raw := some (G.sqrtQ
          (((bnd.getLastD (0, 0)).1 - (bnd.headD (0, 0)).1) ^ 2 +
           ((bnd.getLastD (0, 0)).2 - (bnd.headD (0, 0)).2) ^ 2)),
        azimuth_raw_deg := some
          (if G.atan2Deg ((bnd.getLastD (0, 0)).1 - (bnd.headD (0, 0)).1)
              ((bnd.getLastD (0, 0)).2 - (bnd.headD (0, 0)).2) < 0 then
            G.atan2Deg ((bnd.getLastD (0, 0)).1 - (bnd.headD (0, 0)).1)
              ((bnd.getLastD (0, 0)).2 - (bnd.headD (0, 0)).2) + 360
          else
            G.atan2Deg ((bnd.getLastD (0, 0)).1 - (bnd.headD (0, 0)).1)
              ((bnd.getLastD (0, 0)).2 - (bnd.headD (0, 0)).2)) } := by
  refine ⟨?_, ?_, ?_, ?_⟩
  · simp only [calcLotFromLines, htie]
    rw [hloop]
  · simp only [calcLotFromLines, htie]
    rw [hloop]
  · simp only [calcLotFromLines, htie]
    rw [hloop]
  · rw [misclosureOf, if_pos hlen]

theorem misclosure_two_points :
    misclosureOf modelOps [((0 : ℚ), (1 : ℚ)), ((0 : ℚ), (2 : ℚ))] =
      ⟨some 1, some 0⟩ := by
  rw [misclosureOf, if_pos (by norm_num)]
  have h1 : ([((0 : ℚ), (1 : ℚ)), ((0 : ℚ), (2 : ℚ))] :
      List (ℚ × ℚ)).headD (0, 0) = (0, 1) := rfl
  have h2 : ([((0 : ℚ), (1 : ℚ)), ((0 : ℚ), (2 : ℚ))] :
      List (ℚ × ℚ)).getLastD (0, 0) = (0, 2) := rfl
  rw [h1, h2]
  have hsq : ((0 : ℚ) - 0) ^ 2 + ((2 : ℚ) - 1) ^ 2 = 1 := by norm_num
  have hsqrt : modelOps.sqrtQ 1 = 1 := by
    show ratSqrt 1 = 1
    rw [ratSqrt]
    norm_num [Rat.num_ofNat, Rat.den_ofNat]
  have hat : modelOps.atan2Deg ((0 : ℚ) - 0) ((2 : ℚ) - 1) = 0 := by
    show atan2DegAxes ((0 : ℚ) - 0) ((2 : ℚ) - 1) = 0
    rw [atan2DegAxes, if_pos (by norm_num)]
  simp only [hsq, hsqrt, hat]
  norm_num

theorem spec_misclosure_two_points :
    specMisclosureAzimuth modelOps [((0 : ℚ), (1 : ℚ)), ((0 : ℚ), (2 : ℚ))] =
      180 := by
  rw [specMisclosureAzimuth]
  have h1 : ([((0 : ℚ), (1 : ℚ)), ((0 : ℚ), (2 : ℚ))] :
      List (ℚ × ℚ)).headD (0, 0) = (0, 1) := rfl
  have h2 : ([((0 : ℚ), (1 : ℚ)), ((0 : ℚ), (2 : ℚ))] :
      List (ℚ × ℚ)).getLastD (0, 0) = (0, 2) := rfl
  rw [h1, h2]
  have hat : modelOps.atan2Deg ((0 : ℚ) - 0) ((1 : ℚ) - 2) = 180 := by
    show atan2DegAxes ((0 : ℚ) - 0) ((1 : ℚ) - 2) = 180
    rw [atan2DegAxes, if_neg (by rintro ⟨-, h⟩; norm_num at h),
      if_pos (by norm_num)]
  simp only [hat]
  norm_num

/-- Full evaluation of the two-line due-north lot: boundary
`[(0,1), (0,2)]` before closing, stored misclosure `⟨1, 0°⟩`. -/
theorem lot2_misclosure_eval :
    (_calculate_single_lot_geometry modelOps (fun p => some p) 0 0
      "N 0D 0′ E;1\nN 0D 0′ E;1" "id" "L").misclosure =
      some (misclosureOf modelOps [(0, 1), (0, 2)]) := by
  have hsplit : (pySplitlines "N 0D 0′ E;1\nN 0D 0′ E;1").filter
      (fun l => pyStrip l ≠ "") = ["N 0D 0′ E;1", "N 0D 0′ E;1"] := by decide
  have h1 : _parse_and_calculate_next_point modelOps "N 0D 0′ E;1" 0 0 1 "L"
      "tie-line to POB" = .ok 0 1 ⟨'N', 0, 0, 'E', 1⟩ := by
    rw [step_n0e1]; norm_num
  have h2 : _parse_and_calculate_next_point modelOps "N 0D 0′ E;1"
      ((0 : ℚ), (1 : ℚ)).1 ((0 : ℚ), (1 : ℚ)).2 2 "L" "parcel boundary" =
      .ok 0 2 ⟨'N', 0, 0, 'E', 1⟩ := by
    rw [step_n0e1]; norm_num
  have hloop : boundaryLoop modelOps (fun p => some p) "L" ["N 0D 0′ E;1"] 2
      ((0 : ℚ), (1 : ℚ)) [((0 : ℚ), (1 : ℚ))]
      (initPolyLatlngs (fun p => some p) (0, 0) (0, 1)) =
      .ok ([(0, 1), (0, 2)], [(0, 1), (0, 2)]) := by
    simp only [boundaryLoop, h2]
    rfl
  rw [_calculate_single_lot_geometry, hsplit]
  simp only [calcLotFromLines, h1]
  rw [hloop]

/-- C1 counterexample: on the successful two-line due-north lot the
pre-closure boundary is `[(0,1), (0,2)]`; the code stores misclosure
azimuth 0° — the azimuth of the vector `last − POB = (0, 1)` — while
the spec's words ("the vector from the last computed boundary point
back to the POB", i.e. `POB − last = (0, −1)`) give 180°.  The distance
(1, symmetric in the vector's direction) agrees. -/
theorem misclosure_azimuth_contradicts_spec_vector :
    (_calculate_single_lot_geometry modelOps (fun p => some p) 0 0
      "N 0D 0′ E;1\nN 0D 0′ E;1" "id" "L").misclosure =
      some ⟨some 1, some 0⟩ ∧
    specMisclosureAzimuth modelOps [((0 : ℚ), (1 : ℚ)), ((0 : ℚ), (2 : ℚ))] =
      180 ∧
    (0 : ℚ) ≠ 180 := by
  refine ⟨?_, spec_misclosure_two_points, by norm_num⟩
  rw [lot2_misclosure_eval, misclosure_two_points]

/-- C1 witness: the amended misclosure theorem applied to the concrete
two-line due-north lot. -/
theorem misclosure_pre_closure_witness :
    (calcLotFromLines modelOps (fun p => some p) 0 0
        ["N 0D 0′ E;1", "N 0D 0′ E;1"] "id" "L").status = .success ∧
    (calcLotFromLines modelOps (fun p => some p) 0 0
        ["N 0D 0′ E;1", "N 0D 0′ E;1"] "id" "L").misclosure =
      some (misclosureOf modelOps [(0, 1), (0, 2)]) := by
  have h2 : _parse_and_calculate_next_point modelOps "N 0D 0′ E;1"
      ((0 : ℚ), (1 : ℚ)).1 ((0 : ℚ), (1 : ℚ)).2 2 "L" "parcel boundary" =
      .ok 0 2 ⟨'N', 0, 0, 'E', 1⟩ := by
    rw [step_n0e1]; norm_num
  have happ := misclosure_pre_closure modelOps (fun p => some p) 0 0
    "N 0D 0′ E;1" ["N 0D 0′ E;1"] "id" "L" 0 1 ⟨'N', 0, 0, 'E', 1⟩
    [(0, 1), (0, 2)] [(0, 1), (0, 2)]
    (by rw [step_n0e1]; norm_num)
    (by simp only [boundaryLoop, h2]; rfl)
    (by norm_num)
  exact ⟨happ.1, happ.2.1⟩

/-! ### C8 -/

theorem parse_n45e10 :
    parse_survey_line_to_bearing_distance "N 45D 0′ E;10" =
      some ⟨'N', 45, 0, 'E', 10⟩ := by
  norm_num +decide [parse_survey_line_to_bearing_distance, pySplit, pySplitAux,
    pyStrip, pyStripList, matchBearing, takeDigits12Stop, isNSChar, isEWChar,
    isPySpace, digitVal, pyFloat, takeSign, takeDigits, natOfDigits,
    pyFloatExpPart]

theorem parse_s45e10 :
    parse_survey_line_to_bearing_distance "S 45D 0′ E;10" =
      some ⟨'S', 45, 0, 'E', 10⟩ := by
  norm_num +decide [parse_survey_line_to_bearing_distance, pySplit, pySplitAux,
    pyStrip, pyStripList, matchBearing, takeDigits12Stop, isNSChar, isEWChar,
    isPySpace, digitVal, pyFloat, takeSign, takeDigits, natOfDigits,
    pyFloatExpPart]

theorem parse_s45w10 :
    parse_survey_line_to_bearing_distance "S 45D 0′ W;10" =
      some ⟨'S', 45, 0, 'W', 10⟩ := by
  norm_num +decide [parse_survey_line_to_bearing_distance, pySplit, pySplitAux,
    pyStrip, pyStripList, matchBearing, takeDigits12Stop, isNSChar, isEWChar,
    isPySpace, digitVal, pyFloat, takeSign, takeDigits, natOfDigits,
    pyFloatExpPart]

theorem parse_n45w10 :
    parse_survey_line_to_bearing_distance "N 45D 0′ W;10" =
      some ⟨'N', 45, 0, 'W', 10⟩ := by
  norm_num +decide [parse_survey_line_to_bearing_distance, pySplit, pySplitAux,
    pyStrip, pyStripList, matchBearing, takeDigits12Stop, isNSChar, isEWChar,
    isPySpace, digitVal, pyFloat, takeSign, takeDigits, natOfDigits,
    pyFloatExpPart]

theorem step_n45e10 (e n : ℚ) (i : ℕ) (lot desc : String) :
    _parse_and_calculate_next_point modelOps "N 45D 0′ E;10" e n i lot desc =
      .ok (e + 10 * q45) (n + 10 * q45) ⟨'N', 45, 0, 'E', 10⟩ := by
  rw [_parse_and_calculate_next_point, parse_n45e10]
  have haz : calculate_azimuth ⟨'N', 45, 0, 'E', 10⟩ = some 45 := by
    norm_num +decide [calculate_azimuth]
  simp only [haz]
  norm_num [calculate_new_coordinates, modelOps]

theorem step_s45e10 (e n : ℚ) (i : ℕ) (lot desc : String) :
    _parse_and_calculate_next_point modelOps "S 45D 0′ E;10" e n i lot desc =
      .ok (e + 10 * q45) (n - 10 * q45) ⟨'S', 45, 0, 'E', 10⟩ := by
  rw [_parse_and_calculate_next_point, parse_s45e10]
  have haz : calculate_azimuth ⟨'S', 45, 0, 'E', 10⟩ = some 135 := by
    norm_num +decide [calculate_azimuth]
  simp only [haz]
  norm_num [calculate_new_coordinates, modelOps, q45]
  first
  | exact ⟨by ring, by ring⟩
  | ring

theorem step_s45w10 (e n : ℚ) (i : ℕ) (lot desc : String) :
    _parse_and_calculate_next_point modelOps "S 45D 0′ W;10" e n i lot desc =
      .ok (e - 10 * q45) (n - 10 * q45) ⟨'S', 45, 0, 'W', 10⟩ := by
  rw [_parse_and_calculate_next_point, parse_s45w10]
  have haz : calculate_azimuth ⟨'S', 45, 0, 'W', 10⟩ = some 225 := by
    norm_num +decide [calculate_azimuth]
  simp only [haz]
  norm_num [calculate_new_coordinates, modelOps, q45]
  first
  | exact ⟨by ring, by ring⟩
  | ring

theorem step_n45w10 (e n : ℚ) (i : ℕ) (lot desc : String) :
    _parse_and_calculate_next_point modelOps "N 45D 0′ W;10" e n i lot desc =
      .ok (e - 10 * q45) (n + 10 * q45) ⟨'N', 45, 0, 'W', 10⟩ := by
  rw [_parse_and_calculate_next_point, parse_n45w10]
  have haz : calculate_azimuth ⟨'N', 45, 0, 'W', 10⟩ = some 315 := by
    norm_num +decide [calculate_azimuth]
  simp only [haz]
  norm_num [calculate_new_coordinates, modelOps, q45]
  first
  | exact ⟨by ring, by ring⟩
  | ring

/-- The full diamond (square rotated 45°, side 10) traverse under the
model kernel: the four legs return exactly to the POB, so the
pre-closure ring is already closed and ring-closing appends nothing. -/
theorem diamond_loop_eval :
    boundaryLoop modelOps (fun p => some p) "L"
      ["N 45D 0′ E;10", "S 45D 0′ E;10", "S 45D 0′ W;10", "N 45D 0′ W;10"]
      2 ((0 : ℚ), (1 : ℚ)) [((0 : ℚ), (1 : ℚ))] [((0 : ℚ), (1 : ℚ))] =
      .ok ([(0, 1), (4080 / 577, 4657 / 577), (8160 / 577, 1),
        (4080 / 577, -3503 / 577), (0, 1)],
        [(0, 1), (4080 / 577, 4657 / 577), (8160 / 577, 1),
        (4080 / 577, -3503 / 577), (0, 1)]) := by
  have hA : _parse_and_calculate_next_point modelOps "N 45D 0′ E;10"
      ((0 : ℚ), (1 : ℚ)).1 ((0 : ℚ), (1 : ℚ)).2 2 "L" "parcel boundary" =
      .ok (4080 / 577) (4657 / 577) ⟨'N', 45, 0, 'E', 10⟩ := by
    rw [step_n45e10]; norm_num [q45]
  have hB : _parse_and_calculate_next_point modelOps "S 45D 0′ E;10"
      ((4080 / 577 : ℚ), (4657 / 577 : ℚ)).1
      ((4080 / 577 : ℚ), (4657 / 577 : ℚ)).2 3 "L" "parcel boundary" =
      .ok (8160 / 577) 1 ⟨'S', 45, 0, 'E', 10⟩ := by
    rw [step_s45e10]; norm_num [q45]
  have hC : _parse_and_calculate_next_point modelOps "S 45D 0′ W;10"
      ((8160 / 577 : ℚ), (1 : ℚ)).1 ((8160 / 577 : ℚ), (1 : ℚ)).2 4 "L"
      "parcel boundary" =
      .ok (4080 / 577) (-3503 / 577) ⟨'S', 45, 0, 'W', 10⟩ := by
    rw [step_s45w10]; norm_num [q45]
  have hD : _parse_and_calculate_next_point modelOps "N 45D 0′ W;10"
      ((4080 / 577 : ℚ), (-3503 / 577 : ℚ)).1
      ((4080 / 577 : ℚ), (-3503 / 577 : ℚ)).2 5 "L" "parcel boundary" =
      .ok 0 1 ⟨'N', 45, 0, 'W', 10⟩ := by
    rw [step_n45w10]; norm_num [q45]
  simp only [boundaryLoop, hA, hB, hC, hD]
  rfl

/-- C8: the raw area is absent (`none`, not zero, and no exception — the
area block is a total function into `Option`) whenever the closed ring
has fewer than 4 points or the polygon is invalid; when the closed ring
has at least 4 points and is valid, the raw area is the planar
(shoelace) area of the closed projected ring — and this is exactly what
the lot pipeline stores.  A 4-leg traverse forming a closed square of
side 10 (rotated 45°, since cardinal east/west bearings are outside the
quadrant grammar) yields area `33292800/332929 ≈ 99.9997 ≈ 100` square
meters with misclosure distance 0. -/
theorem area_gating_and_value :
    (∀ (G : GeomOps) (ring : List (ℚ × ℚ)), ring.length < 4 →
      areaBlock G ring = none) ∧
    (∀ (G : GeomOps) (ring : List (ℚ × ℚ)), G.polyIsValid ring = false →
      areaBlock G ring = none) ∧
    (∀ (G : GeomOps) (ring : List (ℚ × ℚ)), 4 ≤ ring.length →
      G.polyIsValid ring = true → areaBlock G ring = some (shoelaceArea ring)) ∧
    (∀ (G : GeomOps) (tr : Transform) (ref_e ref_n : ℚ) (line0 : String)
      (rest : List String) (lot_id lot_name : String) (pe pn : ℚ)
      (ld : SurveyLine) (bnd lls : List (ℚ × ℚ)),
      _parse_and_calculate_next_point G line0 ref_e ref_n 1 lot_name
        "tie-line to POB" = .ok pe pn ld →
      boundaryLoop G tr lot_name rest 2 (pe, pn) [(pe, pn)]
        (initPolyLatlngs tr (ref_e, ref_n) (pe, pn)) = .ok (bnd, lls) →
      (calcLotFromLines G tr ref_e ref_n (line0 :: rest) lot_id
        lot_name).area_sqm_raw = areaBlock G (closeRings bnd lls).1) ∧
    ((_calculate_single_lot_geometry modelOps (fun p => some p) 0 0
        "N 0D 0′ E;1\nN 45D 0′ E;10\nS 45D 0′ E;10\nS 45D 0′ W;10\nN 45D 0′ W;10"
        "id" "L").area_sqm_raw = some (33292800 / 332929) ∧
      |(33292800 / 332929 : ℚ) - 100| < 1 / 1000 ∧
      (_calculate_single_lot_geometry modelOps (fun p => some p) 0 0
        "N 0D 0′ E;1\nN 45D 0′ E;10\nS 45D 0′ E;10\nS 45D 0′ W;10\nN 45D 0′ W;10"
        "id" "L").misclosure = some ⟨some 0, some 0⟩) := by
  have hbig : _calculate_single_lot_geometry modelOps (fun p => some p) 0 0
      "N 0D 0′ E;1\nN 45D 0′ E;10\nS 45D 0′ E;10\nS 45D 0′ W;10\nN 45D 0′ W;10"
      "id" "L" =
      calcLotFromLines modelOps (fun p => some p) 0 0
        ["N 0D 0′ E;1", "N 45D 0′ E;10", "S 45D 0′ E;10", "S 45D 0′ W;10",
          "N 45D 0′ W;10"] "id" "L" := by
    have hsplit : (pySplitlines
        "N 0D 0′ E;1\nN 45D 0′ E;10\nS 45D 0′ E;10\nS 45D 0′ W;10\nN 45D 0′ W;10").filter
        (fun l => pyStrip l ≠ "") =
        ["N 0D 0′ E;1", "N 45D 0′ E;10", "S 45D 0′ E;10", "S 45D 0′ W;10",
          "N 45D 0′ W;10"] := by decide
    rw [_calculate_single_lot_geometry, hsplit]
  have h1 : _parse_and_calculate_next_point modelOps "N 0D 0′ E;1" 0 0 1 "L"
      "tie-line to POB" = .ok 0 1 ⟨'N', 0, 0, 'E', 1⟩ := by
    rw [step_n0e1]; norm_num
  have hinit : initPolyLatlngs (fun p => some p) ((0 : ℚ), (0 : ℚ))
      ((0 : ℚ), (1 : ℚ)) = [((0 : ℚ), (1 : ℚ))] := rfl
  have hring : closeRings
      [((0 : ℚ), (1 : ℚ)), (4080 / 577, 4657 / 577), (8160 / 577, 1),
        (4080 / 577, -3503 / 577), (0, 1)]
      [((0 : ℚ), (1 : ℚ)), (4080 / 577, 4657 / 577), (8160 / 577, 1),
        (4080 / 577, -3503 / 577), (0, 1)] =
      ([((0 : ℚ), (1 : ℚ)), (4080 / 577, 4657 / 577), (8160 / 577, 1),
        (4080 / 577, -3503 / 577), (0, 1)],
       [((0 : ℚ), (1 : ℚ)), (4080 / 577, 4657 / 577), (8160 / 577, 1),
        (4080 / 577, -3503 / 577), (0, 1)]) := by
    rw [closeRings, if_neg]
    rintro ⟨-, hne⟩
    exact hne rfl
  have hlot : calcLotFromLines modelOps (fun p => some p) 0 0
      ["N 0D 0′ E;1", "N 45D 0′ E;10", "S 45D 0′ E;10", "S 45D 0′ W;10",
        "N 45D 0′ W;10"] "id" "L" =
      { status := .success, lot_id := "id", lot_name := "L", message := none,
        projected := some ⟨some (0, 1), [(0, 0), (0, 1)],
          [(0, 1), (4080 / 577, 4657 / 577), (8160 / 577, 1),
            (4080 / 577, -3503 / 577), (0, 1)]⟩,
        latlon := some ⟨some (0, 1), [(0, 0), (0, 1)],
          [(0, 1), (4080 / 577, 4657 / 577), (8160 / 577, 1),
            (4080 / 577, -3503 / 577), (0, 1)]⟩,
        misclosure := some (misclosureOf modelOps
          [(0, 1), (4080 / 577, 4657 / 577), (8160 / 577, 1),
            (4080 / 577, -3503 / 577), (0, 1)]),
        area_sqm_raw := areaBlock modelOps
          [(0, 1), (4080 / 577, 4657 / 577), (8160 / 577, 1),
            (4080 / 577, -3503 / 577), (0, 1)] } := by
    have hpob : pobLatlngOf (fun p => some p) ((0 : ℚ), (0 : ℚ))
        ((0 : ℚ), (1 : ℚ)) = some (0, 1) := rfl
    have htl : tieLatlngsOf (fun p => some p) ((0 : ℚ), (0 : ℚ))
        ((0 : ℚ), (1 : ℚ)) = [(0, 0), (0, 1)] := rfl
    simp only [calcLotFromLines, h1, hinit]
    rw [diamond_loop_eval]
    simp only [hring, hpob, htl]
  have hmisc : misclosureOf modelOps
      [((0 : ℚ), (1 : ℚ)), (4080 / 577, 4657 / 577), (8160 / 577, 1),
        (4080 / 577, -3503 / 577), (0, 1)] = ⟨some 0, some 0⟩ := by
    rw [misclosureOf, if_pos (by norm_num)]
    have hh : ([((0 : ℚ), (1 : ℚ)), (4080 / 577, 4657 / 577), (8160 / 577, 1),
        (4080 / 577, -3503 / 577), (0, 1)] : List (ℚ × ℚ)).headD (0, 0) =
        (0, 1) := rfl
    have hl : ([((0 : ℚ), (1 : ℚ)), (4080 / 577, 4657 / 577), (8160 / 577, 1),
        (4080 / 577, -3503 / 577), (0, 1)] : List (ℚ × ℚ)).getLastD (0, 0) =
        (0, 1) := rfl
    rw [hh, hl]
    have hsq : ((0 : ℚ) - 0) ^ 2 + ((1 : ℚ) - 1) ^ 2 = 0 := by norm_num
    have hsqrt : modelOps.sqrtQ 0 = 0 := by
      show ratSqrt 0 = 0
      rw [ratSqrt]
      norm_num
    have hat : modelOps.atan2Deg ((0 : ℚ) - 0) ((1 : ℚ) - 1) = 0 := by
      show atan2DegAxes ((0 : ℚ) - 0) ((1 : ℚ) - 1) = 0
      rw [atan2DegAxes, if_neg (by rintro ⟨-, h⟩; norm_num at h),
        if_neg (by rintro ⟨-, h⟩; norm_num at h),
        if_neg (by rintro ⟨-, h⟩; norm_num at h),
        if_neg (by rintro ⟨-, h⟩; norm_num at h)]
    simp only [hsq, hsqrt, hat]
    norm_num
  have harea : areaBlock modelOps
      [((0 : ℚ), (1 : ℚ)), (4080 / 577, 4657 / 577), (8160 / 577, 1),
        (4080 / 577, -3503 / 577), (0, 1)] = some (33292800 / 332929) := by
    have hv : modelOps.polyIsValid
        [((0 : ℚ), (1 : ℚ)), (4080 / 577, 4657 / 577), (8160 / 577, 1),
          (4080 / 577, -3503 / 577), (0, 1)] = true := rfl
    rw [areaBlock, if_pos (by norm_num), if_pos hv, shoelaceArea]
    simp only [shoelaceSum]
    rw [abs_of_nonpos (by norm_num)]
    norm_num
  refine ⟨?_, ?_, ?_, ?_, ?_,
    by rw [abs_of_nonpos (by norm_num)]; norm_num, ?_⟩
  · intro G ring h
    rw [areaBlock, if_neg (by omega)]
  · intro G ring h
    rw [areaBlock]
    by_cases h4 : 4 ≤ ring.length
    · rw [if_pos h4, if_neg]
      simp [h]
    · rw [if_neg h4]
  · intro G ring h4 hv
    rw [areaBlock, if_pos h4, if_pos hv]
  · intro G tr ref_e ref_n line0 rest lot_id lot_name pe pn ld bnd lls htie
      hloop
    simp only [calcLotFromLines, htie]
    rw [hloop]
  · rw [hbig, hlot]
    exact harea
  · rw [hbig, hlot]
    rw [hmisc]

/-- C8 witness: the area theorem applied to a 3-point ring (area absent)
and to a valid 5-point closed square ring (area = shoelace area). -/
theorem area_gating_and_value_witness :
    areaBlock modelOps [((0 : ℚ), (0 : ℚ)), (1, 0), (0, 0)] = none ∧
    areaBlock modelOps [((0 : ℚ), (0 : ℚ)), (10, 0), (10, 10), (0, 10),
        (0, 0)] =
      some (shoelaceArea [((0 : ℚ), (0 : ℚ)), (10, 0), (10, 10), (0, 10),
        (0, 0)]) :=
  ⟨area_gating_and_value.1 modelOps _ (by norm_num),
   area_gating_and_value.2.2.1 modelOps _ (by norm_num) rfl⟩
